import Mathlib

/-!
# annotation-checker: `httpchecker.go`

A shallow embedding of the request checker (`Check`, `checkParams`,
`checkQueries`, `checkPayloadJSON`, `convert`, `parseBody`) together with the
parts of the Go standard library it calls, followed by theorems about it.

Conventions of the embedding

* Go strings are Lean `String`s (sequences of runes; Go strings that are not
  valid UTF-8 are outside the model).
* A Go `error` is an `Option String`: `none` is `nil`, `some msg` is an error
  whose `Error()` text is `msg`.
* A Go `map[string]T` is an association list with `GoMap.set` / `GoMap.get`;
  a map field of a struct is an `Option` of it, `none` being the nil map.
* Go `int` is the 64-bit one; values are carried as `Int`.
* Library functions whose result cannot be written down here in full
  (`encoding/json`, `strconv.ParseFloat`, the Unicode case tables) are the
  fields of `Lib`, and every definition is parametric in it.
-/

namespace HttpChecker

/-! ## Values -/

/-- A Go `float64`: a finite value is `(-1)^neg * mant * 2^exp`. -/
inductive Float64 where
  | finite (neg : Bool) (mant : Nat) (exp : Int)
  | inf (neg : Bool)
  | nan
  deriving DecidableEq, Repr

/-- A Go `interface{}` value as the checker meets it: the four kinds the type
switch of `convert` names, `nil`, and the composite values JSON decoding
produces (`[]interface{}` and `map[string]interface{}`). -/
inductive Value where
  | nil
  | int (n : Int)
  | bool (b : Bool)
  | float64 (x : Float64)
  | string (s : String)
  | array (xs : List Value)
  | object (kvs : List (String × Value))
  deriving Repr

/-- The `Err` field of a `*strconv.NumError`. -/
inductive NumError where
  | ErrSyntax
  | ErrRange
  deriving DecidableEq, Repr

/-- Library code outside the repository, taken as given. -/
structure Lib where
  /-- `unicode.ToLower` on a rune above `unicode.MaxASCII`. -/
  unicodeLower : Char → Char
  /-- `strconv.ParseFloat(s, 64)`: the value and the error. -/
  ParseFloat : String → Float64 × Option NumError
  /-- `json.Marshal(v)`: the text, or `none` on an error. -/
  Marshal : Value → Option String
  /-- `json.Unmarshal(body, &data)` for `data map[string]interface{}`: the
  decoded map, or the error. -/
  Unmarshal : String → Except String (List (String × Value))

/-! ## Maps -/

/-- A Go `map[string]T`. -/
abbrev GoMap (α : Type) := List (String × α)

/-- `m[k] = v`. -/
def GoMap.set {α : Type} : GoMap α → String → α → GoMap α
  | [], k, v => [(k, v)]
  | (k0, v0) :: rest, k, v =>
    if k0 = k then (k, v) :: rest else (k0, v0) :: GoMap.set rest k v

/-- `v, ok := m[k]`. -/
def GoMap.find {α : Type} : GoMap α → String → Option α
  | [], _ => none
  | (k0, v0) :: rest, k => if k0 = k then some v0 else GoMap.find rest k

/-- `m[k]`, with `zero` the zero value of the element type. -/
def GoMap.get {α : Type} (zero : α) (m : GoMap α) (k : String) : α :=
  (GoMap.find m k).getD zero

/-- The keys of a map. -/
def GoMap.keys {α : Type} (m : GoMap α) : List String := m.map Prod.fst

/-- The keys of a map field; the nil map has none. -/
def keysOf {α : Type} : Option (GoMap α) → List String
  | none => []
  | some m => GoMap.keys m

/-! ## package strings -/

/-- `unicode.ToLower`. -/
def lowerRune (L : Lib) (c : Char) : Char :=
  if 65 ≤ c.toNat ∧ c.toNat ≤ 90 then Char.ofNat (c.toNat + 32)
  else if c.toNat < 128 then c
  else L.unicodeLower c

/-- `strings.ToLower`. -/
def ToLower (L : Lib) (s : String) : String := ⟨s.data.map (lowerRune L)⟩

/-- The pieces of a rune list between the occurrences of `sep`. -/
def splitChars (sep : Char) : List Char → List (List Char)
  | [] => [[]]
  | c :: cs =>
    if c = sep then [] :: splitChars sep cs
    else match splitChars sep cs with
      | [] => [[c]]
      | w :: ws => (c :: w) :: ws

/-- `strings.Split(s, sep)` for a separator of one rune. -/
def Split (s : String) (sep : Char) : List String :=
  (splitChars sep s.data).map String.mk

/-! ## package strconv -/

/-- Whether the rune is one of `0` .. `9`. -/
def isDigit (c : Char) : Bool := decide (48 ≤ c.toNat) && decide (c.toNat ≤ 57)

/-- The number a run of decimal digits denotes, continuing from `acc`;
`none` when a rune is not a digit. -/
def digitsVal : List Char → Nat → Option Nat
  | [], acc => some acc
  | c :: cs, acc => if isDigit c then digitsVal cs (acc * 10 + (c.toNat - 48)) else none

/-- The size of `int` in bits. -/
def intSize : Nat := 64

/-- The loop of `strconv.ParseUint(s, 10, 0)` over the bytes, from the value
`n` read so far: the value and the error. A byte that is not a decimal digit
is a syntax error, with 0. A digit that takes the value past the largest
uint64 is a range error, with that largest value: the loop returns there,
before it looks at the bytes that follow. -/
def parseUintLoop : List Char → Nat → Nat × Option NumError
  | [], n => (n, none)
  | c :: cs, n =>
    if isDigit c then
      if n ≥ (2 ^ intSize - 1) / 10 + 1 then (2 ^ intSize - 1, some .ErrRange)
      else if n * 10 + (c.toNat - 48) > 2 ^ intSize - 1 then (2 ^ intSize - 1, some .ErrRange)
      else parseUintLoop cs (n * 10 + (c.toNat - 48))
    else (0, some .ErrSyntax)

/-- `strconv.Atoi`: the value and the error (its fast path for short texts
agrees with `ParseInt(s, 10, 0)`, which is what is written here). The sign is
picked off, `ParseUint` reads the digits; a syntax error comes with 0, a
range error with the nearest bound of int. -/
def Atoi (s : String) : Int × Option NumError :=
  match s.data with
  | [] => (0, some .ErrSyntax)
  | c :: t =>
    let ds := if c = '-' ∨ c = '+' then t else c :: t
    if ds = [] then (0, some .ErrSyntax)
    else
      let un := parseUintLoop ds 0
      if un.2 = some .ErrSyntax then (0, some .ErrSyntax)
      else if c = '-' then
        if un.1 > 2 ^ (intSize - 1) then (-(2 ^ (intSize - 1) : Int), some .ErrRange)
        else (-(un.1 : Int), none)
      else
        if un.1 ≥ 2 ^ (intSize - 1) then ((2 ^ (intSize - 1) : Int) - 1, some .ErrRange)
        else ((un.1 : Int), none)

/-- `strconv.ParseBool`. -/
def ParseBool (s : String) : Bool × Option NumError :=
  if s = "1" ∨ s = "t" ∨ s = "T" ∨ s = "TRUE" ∨ s = "true" ∨ s = "True" then (true, none)
  else if s = "0" ∨ s = "f" ∨ s = "F" ∨ s = "FALSE" ∨ s = "false" ∨ s = "False" then (false, none)
  else (false, some .ErrSyntax)

/-! ## package fmt -/

/-- The decimal digit `d` as a rune. -/
def digitChar (d : Nat) : Char := Char.ofNat (48 + d)

/-- The decimal digits of `n`, most significant first (`fuel` bounds the
recursion and is enough when it exceeds `n`). -/
def natDigits : Nat → Nat → List Char
  | 0, _ => []
  | fuel + 1, n =>
    if n < 10 then [digitChar n] else natDigits fuel (n / 10) ++ [digitChar (n % 10)]

/-- The decimal text of a natural number. -/
def fmtNat (n : Nat) : String := ⟨natDigits (n + 1) n⟩

/-- The verb `%d` on an `int`. -/
def fmtInt (n : Int) : String :=
  if n < 0 then "-" ++ fmtNat n.natAbs else fmtNat n.natAbs

/-- The verb `%t` on a `bool`. -/
def fmtBool (b : Bool) : String := if b then "true" else "false"

/-- The integer nearest to `m / d`, a tie going to the even one. -/
def roundHalfEven (m d : Nat) : Nat :=
  let q := m / d
  let r := m % d
  if 2 * r > d then q + 1
  else if 2 * r < d then q
  else if q % 2 = 0 then q else q + 1

/-- The verb `%.0f` (also written `%0.f`) on a `float64`: no digit after the
point, the value rounded half to even, the sign kept on a zero. -/
def fmtFloat0 : Float64 → String
  | .nan => "NaN"
  | .inf neg => if neg then "-Inf" else "+Inf"
  | .finite neg mant exp =>
    let n := match exp with
      | .ofNat e => mant * 2 ^ e
      | .negSucc e => roundHalfEven mant (2 ^ (e + 1))
    if neg then "-" ++ fmtNat n else fmtNat n

/-- Padding with spaces on the left up to `width` runes. -/
def padLeft (width : Nat) (s : String) : String :=
  ⟨List.replicate (width - s.data.length) ' ' ++ s.data⟩

/-- The verb `%2.f` on a `float64`: as `%.0f`, in a field of width 2. -/
def fmtFloat2 (x : Float64) : String := padLeft 2 (fmtFloat0 x)

/-! ## convert -/

/-- The second switch of `convert`: parses `valueString` as `trueType` asks. -/
def convertParse (L : Lib) (trueType : String) (value : Value) (valueString : String) :
    Value × Option String :=
  let t := ToLower L trueType
  if t = "int" then
    match Atoi valueString with
    | (rInt, some _) => (.int rInt, some ("cannot convert " ++ valueString ++ " to " ++ "int"))
    | (rInt, none) => (.int rInt, none)
  else if t = "float64" then
    match L.ParseFloat valueString with
    | (rFloat64, some _) =>
      (.float64 rFloat64, some ("cannot convert " ++ valueString ++ " to " ++ "float64"))
    | (rFloat64, none) => (.float64 rFloat64, none)
  else if t = "bool" then
    match ParseBool valueString with
    | (rBool, some _) => (.bool rBool, some ("cannot convert " ++ valueString ++ " to " ++ "bool"))
    | (rBool, none) => (.bool rBool, none)
  else if t = "string" ∨ t = "map" ∨ t = "empty" then
    (.string valueString, none)
  else
    (value, some (trueType ++ "'s type is not supported"))

/-- Go `convert(trueType, value)`: the value and the error it returns. -/
def convert (L : Lib) (trueType : String) (value : Value) : Value × Option String :=
  match value with
  | .int n => convertParse L trueType value (fmtInt n)
  | .bool b => convertParse L trueType value (fmtBool b)
  | .float64 x =>
    if trueType ≠ "int" then convertParse L trueType value (fmtFloat2 x)
    else convertParse L trueType value (fmtFloat0 x)
  | .string s => convertParse L trueType value s
  | _ =>
    if trueType = "map" then
      match L.Marshal value with
      | none => (.nil, some "can't parse map type")
      | some marshal => convertParse L trueType value marshal
    else
      (.nil, some "type not found")

/-! ## The request, the schema and the result -/

/-- What `Check` reads of a `*http.Request`. -/
structure Request where
  /-- The field `r.Method`. -/
  Method : String
  /-- The text `r.URL.String()`. -/
  URL : String
  /-- The text `r.Header.Get("Content-Type")`, empty when the header is absent. -/
  ContentType : String
  /-- The outcome of `ioutil.ReadAll(r.Body)`: the bytes read, or the error. -/
  Body : Except String String

/-- Modelled from the spec: the FieldSpec record (key, declared type,
nullability) of package `parser`, which is not part of the sources; the
checker reads its fields `Key`, `Type` and `Nullable`. -/
structure Field where
  Key : String
  /-- The field `Type` of the source (a reserved word here). -/
  Type_ : String
  Nullable : Bool
  deriving DecidableEq, Repr

/-- Modelled from the spec: the three ordered FieldSpec lists of a route,
read as `a.Validate.Params`, `a.Validate.Queries` and `a.Validate.Payload`. -/
structure Validate where
  Params : List Field
  Queries : List Field
  Payload : List Field
  deriving DecidableEq, Repr

/-- Modelled from the spec: the schema object `parser.API`, of which the
checker reads `Validate` only. -/
structure API where
  Validate : Validate
  deriving DecidableEq, Repr

/-- Go `Result`. -/
structure Result where
  Status : Int
  Params : Option (GoMap Value)
  Queries : Option (GoMap Value)
  Payload : Option (GoMap Value)
  r : Request
  a : API
  ps : GoMap String

/-- The constant `http.StatusBadRequest`. -/
def StatusBadRequest : Int := 400

/-- Go `parseBody(r, &data)`: the decoded map, or the error. -/
def parseBody (L : Lib) (r : Request) : Except String (GoMap Value) :=
  match r.Body with
  | .error err => .error err
  | .ok body => L.Unmarshal body

/-! ## The three stages

The methods have the value receiver `(r Result)`: each works on its own copy
of the result. A stage is therefore embedded as a function to the pair of that
copy, as it stands when the method returns, and the returned error; the
caller gets the error only. -/

/-- The inner loop of `checkParams` over the entries of `r.ps`, from the
current `value`: the final `value` and the error. -/
def paramsInner (L : Lib) (param : Field) : GoMap String → Value → Value × Option String
  | [], value => (value, none)
  | (k, v) :: rest, value =>
    if k = param.Key then
      match convert L param.Type_ (.string v) with
      | (value1, some err) => (value1, some err)
      | (value1, none) => paramsInner L param rest value1
    else paramsInner L param rest value

/-- The outer loop of `checkParams` over the declared params, from the map
`r.Params` built so far. -/
def paramsLoop (L : Lib) (ps : GoMap String) : List Field → GoMap Value → GoMap Value × Option String
  | [], m => (m, none)
  | param :: rest, m =>
    match paramsInner L param ps .nil with
    | (_, some err) => (m, some err)
    | (value, none) => paramsLoop L ps rest (GoMap.set m param.Key value)

/-- Go `(r Result) checkParams()`. -/
def checkParams (L : Lib) (r : Result) : Result × Option String :=
  let out := paramsLoop L r.ps r.a.Validate.Params []
  ({ r with Params := some out.1 }, out.2)

/-- The first loop of `checkQueries`: fills `list` from the pairs of the query
string. (`strings.Split` never returns an empty slice.) -/
def queryList (L : Lib) : List String → GoMap String → GoMap String
  | [], list => list
  | q :: rest, list =>
    let split := Split q '='
    if split.length = 1 then
      queryList L rest (GoMap.set list (ToLower L (split.headD "")) (split.headD ""))
    else
      queryList L rest (GoMap.set list (ToLower L (split.headD "")) (split.getD 1 ""))

/-- The second loop of `checkQueries` over the declared queries, from the map
`r.Queries` built so far. -/
def queriesLoop (L : Lib) (list : GoMap String) :
    List Field → GoMap Value → GoMap Value × Option String
  | [], m => (m, none)
  | query :: rest, m =>
    if GoMap.get "" list query.Key = "" ∧ query.Nullable = false then
      (m, some (query.Key ++ "'s queries can't be empty"))
    else if GoMap.get "" list query.Key ≠ "" then
      match convert L query.Type_ (.string (GoMap.get "" list query.Key)) with
      | (_, some err) => (m, some err)
      | (value, none) => queriesLoop L list rest (GoMap.set m query.Key value)
    else queriesLoop L list rest (GoMap.set m query.Key .nil)

/-- Go `(r Result) checkQueries()`. -/
def checkQueries (L : Lib) (r : Result) : Result × Option String :=
  let split := Split r.r.URL '?'
  if split.length < 2 then ({ r with Queries := some [] }, none)
  else
    let queries := Split (split.getD 1 "") '&'
    let list := queryList L queries []
    let out := queriesLoop L list r.a.Validate.Queries []
    ({ r with Queries := some out.1 }, out.2)

/-- The test `v == "" || v == nil` on an `interface{}`. -/
def isBlank : Value → Bool
  | .nil => true
  | .string s => decide (s = "")
  | _ => false

/-- The loop of `checkPayloadJSON` over the declared payload fields, from the
map `r.Payload` built so far. -/
def payloadLoop (L : Lib) (data : GoMap Value) :
    List Field → GoMap Value → GoMap Value × Option String
  | [], m => (m, none)
  | body :: rest, m =>
    if body.Nullable = false ∧ isBlank (GoMap.get .nil data body.Key) = true then
      (m, some (body.Key ++ "'s key is required in payload"))
    else if isBlank (GoMap.get .nil data body.Key) = true then
      payloadLoop L data rest (GoMap.set m body.Key .nil)
    else
      match convert L body.Type_ (GoMap.get .nil data body.Key) with
      | (_, some err) => (m, some err)
      | (value, none) => payloadLoop L data rest (GoMap.set m body.Key value)

/-- Go `(r Result) checkPayloadJSON()`. -/
def checkPayloadJSON (L : Lib) (r : Result) : Result × Option String :=
  if r.a.Validate.Payload.length ≤ 0 then ({ r with Payload := some [] }, none)
  else
    match parseBody L r.r with
    | .error err => ({ r with Payload := some [] }, some err)
    | .ok data =>
      let out := payloadLoop L data r.a.Validate.Payload []
      ({ r with Payload := some out.1 }, out.2)

/-! ## Check -/

/-- The composite literal `Result{r: r, a: a, ps: params}`: every other field
has its zero value, the maps are nil. -/
def newResult (r : Request) (a : API) (params : GoMap String) : Result :=
  { Status := 0, Params := none, Queries := none, Payload := none, r := r, a := a, ps := params }

/-- Go `Check(r, a, params)`: the result and the error. -/
def Check (L : Lib) (r : Request) (a : API) (params : GoMap String) : Result × Option String :=
  let res : Result := newResult r a params
  match (checkParams L res).2 with
  | some err => ({ res with Status := StatusBadRequest }, some err)
  | none =>
    match (checkQueries L res).2 with
    | some err => ({ res with Status := StatusBadRequest }, some err)
    | none =>
      if r.Method = "POST" ∨ r.Method = "PUT" then
        let ct := Split (r.ContentType) ';'
        if ToLower L (ct.headD "") = "application/json" then
          match (checkPayloadJSON L res).2 with
          | some err => ({ res with Status := StatusBadRequest }, some err)
          | none => (res, none)
        else
          ({ res with Status := StatusBadRequest },
            some (ct.headD "" ++ " is not supported by this API"))
      else (res, none)

/-! ## An environment for the worked examples -/

/-- A stand-in for the library: runes above ASCII have no lower case,
`ParseFloat` knows the decimal integers below `2^53`, `Marshal` the empty
array and object, `Unmarshal` the bodies `{}`, `null` and
`{"name":"bob","age":41}`. -/
def demoLib : Lib where
  unicodeLower := fun c => c
  ParseFloat := fun s =>
    match Atoi s with
    | (n, none) =>
      if n.natAbs < 2 ^ 53 then (.finite (s.data.head? = some '-') n.natAbs 0, none)
      else (.finite false 0 0, some .ErrSyntax)
    | (_, some _) => (.finite false 0 0, some .ErrSyntax)
  Marshal := fun v =>
    match v with
    | .array [] => some "[]"
    | .object [] => some "\x7b\x7d"
    | _ => none
  Unmarshal := fun body =>
    if body = "\x7b\x7d" ∨ body = "null" then .ok []
    else if body = "\x7b\"name\":\"bob\",\"age\":41\x7d" then
      .ok [("name", .string "bob"), ("age", .float64 (.finite false 41 0))]
    else .error "unexpected end of JSON input"

/-! ## Notions of the specification -/

/-- Spec: a well-formed decimal integer, an optional sign followed by one or
more decimal digits. -/
def isDecimalInteger (s : String) : Bool :=
  match s.data with
  | [] => false
  | c :: t =>
    if c = '-' ∨ c = '+' then !t.isEmpty && t.all isDigit else (c :: t).all isDigit

/-- Spec: the Content-Type header cut at its first `;`. -/
def contentTypeCut (header : String) : String :=
  ⟨header.data.takeWhile (fun c => c ≠ ';')⟩

/-- Spec: the text is `application/json` written in some letter case. -/
def isJSONAnyCase (s : String) : Bool :=
  decide (s.data.map Char.toLower = "application/json".data)

/-- Spec: the key is absent from the decoded body, or its value is JSON null
or the empty string. -/
def absentOrEmpty (data : GoMap Value) (key : String) : Prop :=
  GoMap.find data key = none ∨ GoMap.find data key = some .nil ∨
    GoMap.find data key = some (.string "")

/-- The map `list` that `checkQueries` builds from a URL with a query string. -/
def urlQueryList (L : Lib) (url : String) : GoMap String :=
  queryList L (Split ((Split url '?').getD 1 "") '&') []

/-- The request with another Content-Type header and another body. -/
def Request.withBody (r : Request) (contentType : String) (body : Except String String) :
    Request :=
  { r with ContentType := contentType, Body := body }

/-- The schema with other declared payload fields. -/
def API.withPayload (a : API) (payload : List Field) : API :=
  { Validate := { a.Validate with Payload := payload } }

/-- Spec: the key text of a query pair, what stands before its first `=`. -/
def pairKey (q : String) : String :=
  ⟨q.data.takeWhile (fun c => c ≠ '=')⟩

/-- The pairs of the query string of a URL, as `checkQueries` cuts them. -/
def queryPairs (url : String) : List String :=
  Split ((Split url '?').getD 1 "") '&'

/-- Spec: the text equals the lower-case word `target` ignoring letter case. -/
def eqIgnoreCase (s target : String) : Bool :=
  decide (s.data.map Char.toLower = target.data)

/-- Spec: a composite raw value, a decoded JSON array or object. -/
def isComposite : Value → Bool
  | .array _ => true
  | .object _ => true
  | _ => false

/-- Spec: a raw value of one of the four kinds the first switch of `convert`
names: an int, a bool, a float64 or a string. -/
def isPrimitive : Value → Bool
  | .int _ => true
  | .bool _ => true
  | .float64 _ => true
  | .string _ => true
  | _ => false

/-- The magnitude `mant * 2^exp` of a finite float as `%.0f` rounds it. -/
def roundedMagnitude (mant : Nat) (exp : Int) : Nat :=
  match exp with
  | .ofNat e => mant * 2 ^ e
  | .negSucc e => roundHalfEven mant (2 ^ (e + 1))

/-- Spec: `n` is an integer nearest to the fraction `m / d`, that is
`|m / d - n| ≤ 1 / 2`. -/
def isNearestTo (m d n : Nat) : Prop :=
  2 * m ≤ (2 * n + 1) * d ∧ 2 * n * d ≤ 2 * m + d

/-! ## Digits -/

theorem digitChar_toNat (d : Nat) (h : d < 10) : (digitChar d).toNat = 48 + d := by
  interval_cases d <;> rfl

theorem isDigit_digitChar (d : Nat) (h : d < 10) : isDigit (digitChar d) = true := by
  interval_cases d <;> rfl

theorem digitsVal_append (xs ys : List Char) (acc : Nat) :
    digitsVal (xs ++ ys) acc = (digitsVal xs acc).bind (digitsVal ys) := by
  induction xs generalizing acc with
  | nil => simp [digitsVal]
  | cons c cs ih =>
    simp only [List.cons_append, digitsVal]
    split
    · exact ih _
    · rfl

theorem digitsVal_natDigits (fuel n : Nat) (h : n < fuel) :
    digitsVal (natDigits fuel n) 0 = some n := by
  induction fuel generalizing n with
  | zero => omega
  | succ f ih =>
    unfold natDigits
    split
    · rename_i h10
      simp [digitsVal, isDigit_digitChar n h10, digitChar_toNat n h10]
    · rename_i h10
      have hlt : n % 10 < 10 := Nat.mod_lt _ (by decide)
      rw [digitsVal_append, ih (n / 10) (by omega)]
      simp [digitsVal, isDigit_digitChar _ hlt, digitChar_toNat _ hlt]
      omega

theorem natDigits_all (fuel n : Nat) : ∀ c ∈ natDigits fuel n, isDigit c = true := by
  induction fuel generalizing n with
  | zero => simp [natDigits]
  | succ f ih =>
    unfold natDigits
    split
    · rename_i h10
      simp [isDigit_digitChar n h10]
    · intro c hc
      rcases List.mem_append.1 hc with h | h
      · exact ih _ c h
      · have hlt : n % 10 < 10 := Nat.mod_lt _ (by decide)
        simp at h
        subst h
        exact isDigit_digitChar _ hlt

theorem natDigits_ne_nil (fuel n : Nat) : natDigits (fuel + 1) n ≠ [] := by
  unfold natDigits
  split <;> simp

theorem isDigit_ne_sign (c : Char) (h : isDigit c = true) : ¬ (c = '-' ∨ c = '+') := by
  rintro (rfl | rfl) <;> revert h <;> decide

theorem digitsVal_none (ds : List Char) (acc : Nat) (h : ds.all isDigit = false) :
    digitsVal ds acc = none := by
  induction ds generalizing acc with
  | nil => simp at h
  | cons c cs ih =>
    unfold digitsVal
    split
    · rename_i hc
      apply ih
      simpa [hc] using h
    · rfl

/-! ## Atoi -/

theorem digitsVal_le (ds : List Char) (acc v : Nat) (h : digitsVal ds acc = some v) :
    acc ≤ v := by
  induction ds generalizing acc with
  | nil =>
    simp only [digitsVal, Option.some.injEq] at h
    omega
  | cons c cs ih =>
    unfold digitsVal at h
    split at h
    · have := ih _ h
      omega
    · cases h

/-- On a run of digits whose value fits in a uint64 the loop of `ParseUint`
returns that value and no error. -/
theorem parseUintLoop_of_digitsVal (ds : List Char) (acc v : Nat)
    (h : digitsVal ds acc = some v) (hv : v < 2 ^ 64) : parseUintLoop ds acc = (v, none) := by
  induction ds generalizing acc with
  | nil =>
    simp only [digitsVal, Option.some.injEq] at h
    subst h
    rfl
  | cons c cs ih =>
    unfold digitsVal at h
    split at h
    · rename_i hc
      have hle := digitsVal_le _ _ _ h
      unfold parseUintLoop
      have h1 : ¬ acc ≥ (2 ^ intSize - 1) / 10 + 1 := by
        simp only [intSize]
        norm_num
        omega
      have h2 : ¬ acc * 10 + (c.toNat - 48) > 2 ^ intSize - 1 := by
        simp only [intSize]
        omega
      rw [if_pos hc, if_neg h1, if_neg h2]
      exact ih _ h
    · cases h

/-- The loop of `ParseUint` gives its range error with the largest uint64. -/
theorem parseUintLoop_range (ds : List Char) (acc : Nat)
    (h : (parseUintLoop ds acc).2 = some .ErrRange) :
    (parseUintLoop ds acc).1 = 2 ^ 64 - 1 := by
  induction ds generalizing acc with
  | nil => simp [parseUintLoop] at h
  | cons c cs ih =>
    unfold parseUintLoop at h ⊢
    split
    · rename_i hc
      rw [if_pos hc] at h
      split
      · rfl
      · rename_i h1
        rw [if_neg h1] at h
        split
        · rfl
        · rename_i h2
          rw [if_neg h2] at h
          exact ih _ h
    · rename_i hc
      rw [if_neg hc] at h
      simp at h

/-- On a run with a byte that is not a digit the loop of `ParseUint` fails. -/
theorem parseUintLoop_err (ds : List Char) (acc : Nat) (h : ds.all isDigit = false) :
    (parseUintLoop ds acc).2 ≠ none := by
  induction ds generalizing acc with
  | nil => simp at h
  | cons c cs ih =>
    unfold parseUintLoop
    split
    · rename_i hc
      split
      · simp
      · split
        · simp
        · apply ih
          simpa [hc] using h
    · simp

theorem Atoi_fmtNat (k : Nat) (h : k < 2 ^ 63) : Atoi (fmtNat k) = ((k : Int), none) := by
  unfold Atoi fmtNat
  simp only
  have hne := natDigits_ne_nil k k
  have hall := natDigits_all (k + 1) k
  have hval := parseUintLoop_of_digitsVal _ 0 k (digitsVal_natDigits (k + 1) k (by omega))
    (by omega)
  generalize natDigits (k + 1) k = ds at hne hall hval
  cases ds with
  | nil => exact absurd rfl hne
  | cons c t =>
    have hc : isDigit c = true := hall c (by simp)
    have hs := isDigit_ne_sign c hc
    have hm : c ≠ '-' := fun e => hs (Or.inl e)
    simp only [if_neg hs, hval, if_neg hm]
    simp [intSize]
    omega

theorem Atoi_neg_fmtNat (k : Nat) (h : k ≤ 2 ^ 63) :
    Atoi ("-" ++ fmtNat k) = (-(k : Int), none) := by
  unfold Atoi fmtNat
  have hne := natDigits_ne_nil k k
  have hval := parseUintLoop_of_digitsVal _ 0 k (digitsVal_natDigits (k + 1) k (by omega))
    (by omega)
  have hd : ("-" ++ (⟨natDigits (k + 1) k⟩ : String)).data = '-' :: natDigits (k + 1) k := rfl
  rw [hd]
  simp only [true_or, if_true, hval, if_neg hne]
  simp [intSize]
  omega

/-- The outcome of `Atoi` once `ParseUint` has failed on the digits: an error,
whichever it is. -/
theorem Atoi_tail_err (c : Char) (ds : List Char) (h : (parseUintLoop ds 0).2 ≠ none) :
    (if (parseUintLoop ds 0).2 = some NumError.ErrSyntax then ((0 : Int), some NumError.ErrSyntax)
      else if c = '-' then
        if (parseUintLoop ds 0).1 > 2 ^ (intSize - 1) then
          (-(2 ^ (intSize - 1) : Int), some NumError.ErrRange)
        else (-((parseUintLoop ds 0).1 : Int), none)
      else
        if (parseUintLoop ds 0).1 ≥ 2 ^ (intSize - 1) then
          ((2 ^ (intSize - 1) : Int) - 1, some NumError.ErrRange)
        else (((parseUintLoop ds 0).1 : Int), none)).2 ≠ none := by
  by_cases hsyn : (parseUintLoop ds 0).2 = some NumError.ErrSyntax
  · rw [if_pos hsyn]
    simp
  · rw [if_neg hsyn]
    have hr : (parseUintLoop ds 0).2 = some NumError.ErrRange := by
      rcases he : (parseUintLoop ds 0).2 with _ | e
      · exact absurd he h
      · cases e
        · exact absurd he hsyn
        · rfl
    have hv := parseUintLoop_range ds 0 hr
    have h1 : (parseUintLoop ds 0).1 > 2 ^ (intSize - 1) := by
      rw [hv]
      simp only [intSize]
      norm_num
    have h2 : (parseUintLoop ds 0).1 ≥ 2 ^ (intSize - 1) := Nat.le_of_lt h1
    by_cases hc : c = '-'
    · rw [if_pos hc, if_pos h1]
      simp
    · rw [if_neg hc, if_pos h2]
      simp

/-- On a text that is not a well-formed decimal integer `Atoi` fails. -/
theorem Atoi_not_decimal (s : String) (h : isDecimalInteger s = false) :
    (Atoi s).2 ≠ none := by
  unfold Atoi
  unfold isDecimalInteger at h
  cases hd : s.data with
  | nil => simp
  | cons c t =>
    rw [hd] at h
    simp only at h ⊢
    by_cases hs : c = '-' ∨ c = '+'
    · rw [if_pos hs] at h ⊢
      by_cases ht : t = []
      · rw [if_pos ht]
        simp
      · rw [if_neg ht]
        have hall : t.all isDigit = false := by
          cases t with
          | nil => exact absurd rfl ht
          | cons x xs => simpa using h
        exact Atoi_tail_err c t (parseUintLoop_err t 0 hall)
    · rw [if_neg hs] at h ⊢
      rw [if_neg (by simp)]
      exact Atoi_tail_err c (c :: t) (parseUintLoop_err (c :: t) 0 h)

/-! ## convert to `int` -/

theorem ToLower_int (L : Lib) : ToLower L "int" = "int" := rfl

theorem convert_int_string (L : Lib) (s : String) :
    convert L "int" (.string s) =
      match Atoi s with
      | (rInt, some _) => (.int rInt, some ("cannot convert " ++ s ++ " to int"))
      | (rInt, none) => (.int rInt, none) := by
  unfold convert convertParse
  simp only [ToLower_int, if_true]
  split <;> simp_all [String.append_assoc]

/-- C3: `convert("int", s)` on the decimal text of an integer `n` of the int
range returns `n` and no error, and on a string that is not a well-formed
decimal integer it fails with the error "cannot convert <s> to int" (the
value that comes with the error is the int `Atoi` returns with its own). -/
theorem C3_convert_int (L : Lib) :
    (∀ n : Int, -(2 ^ 63) ≤ n → n < 2 ^ 63 →
        convert L "int" (.string (fmtInt n)) = (.int n, none)) ∧
    (∀ s : String, isDecimalInteger s = false →
        convert L "int" (.string s) =
          (.int (Atoi s).1, some ("cannot convert " ++ s ++ " to int"))) := by
  constructor
  · intro n hlo hhi
    rw [convert_int_string]
    unfold fmtInt
    by_cases hn : n < 0
    · rw [if_pos hn, Atoi_neg_fmtNat n.natAbs (by omega)]
      simp only
      congr 2
      omega
    · rw [if_neg hn, Atoi_fmtNat n.natAbs (by omega)]
      simp only
      congr 2
      omega
  · intro s hs
    rw [convert_int_string]
    have herr := Atoi_not_decimal s hs
    rcases hA : Atoi s with ⟨v, _ | e⟩
    · rw [hA] at herr
      exact absurd rfl herr
    · rfl

/-- C3 at -42, at the text `4x2`, and at the text `99999999999999999999x`,
where the digits overflow before the `x` is reached: the error is the same,
the value that comes with it is the largest int. -/
theorem C3_convert_int_witness :
    convert demoLib "int" (.string (fmtInt (-42))) = (.int (-42), none) ∧
    convert demoLib "int" (.string "4x2") =
      (.int 0, some ("cannot convert " ++ "4x2" ++ " to int")) ∧
    convert demoLib "int" (.string "99999999999999999999x") =
      (.int 9223372036854775807,
        some ("cannot convert " ++ "99999999999999999999x" ++ " to int")) :=
  ⟨(C3_convert_int demoLib).1 (-42) (by decide) (by decide),
    (C3_convert_int demoLib).2 "4x2" (by decide),
    (C3_convert_int demoLib).2 "99999999999999999999x" (by decide)⟩

/-! ## What each stage reads -/

theorem checkParams_err (L : Lib) (res : Result) :
    (checkParams L res).2 = (paramsLoop L res.ps res.a.Validate.Params []).2 := rfl

theorem checkQueries_err (L : Lib) (res : Result) :
    (checkQueries L res).2 =
      if (Split res.r.URL '?').length < 2 then none
      else (queriesLoop L (urlQueryList L res.r.URL) res.a.Validate.Queries []).2 := by
  unfold checkQueries urlQueryList
  simp only
  split <;> rfl

theorem checkParams_err_congr (L : Lib) (r r2 : Request) (a a2 : API) (ps : GoMap String)
    (h : a2.Validate.Params = a.Validate.Params) :
    (checkParams L (newResult r2 a2 ps)).2 = (checkParams L (newResult r a ps)).2 := by
  simp only [checkParams_err, newResult, h]

theorem checkQueries_err_congr (L : Lib) (r r2 : Request) (a a2 : API) (ps ps2 : GoMap String)
    (hu : r2.URL = r.URL) (h : a2.Validate.Queries = a.Validate.Queries) :
    (checkQueries L (newResult r2 a2 ps2)).2 = (checkQueries L (newResult r a ps)).2 := by
  simp only [checkQueries_err, newResult, h, hu]

/-! ## The paths through Check -/

theorem Check_params_err (L : Lib) (r : Request) (a : API) (ps : GoMap String) (e : String)
    (h : (checkParams L (newResult r a ps)).2 = some e) :
    Check L r a ps = ({ newResult r a ps with Status := StatusBadRequest }, some e) := by
  unfold Check
  simp only [h]

theorem Check_queries_err (L : Lib) (r : Request) (a : API) (ps : GoMap String) (e : String)
    (hp : (checkParams L (newResult r a ps)).2 = none)
    (h : (checkQueries L (newResult r a ps)).2 = some e) :
    Check L r a ps = ({ newResult r a ps with Status := StatusBadRequest }, some e) := by
  unfold Check
  simp only [hp, h]

theorem Check_no_body (L : Lib) (r : Request) (a : API) (ps : GoMap String)
    (hp : (checkParams L (newResult r a ps)).2 = none)
    (hq : (checkQueries L (newResult r a ps)).2 = none)
    (hm : ¬ (r.Method = "POST" ∨ r.Method = "PUT")) :
    Check L r a ps = (newResult r a ps, none) := by
  unfold Check
  simp only [hp, hq, if_neg hm]

theorem Check_unsupported (L : Lib) (r : Request) (a : API) (ps : GoMap String)
    (hp : (checkParams L (newResult r a ps)).2 = none)
    (hq : (checkQueries L (newResult r a ps)).2 = none)
    (hm : r.Method = "POST" ∨ r.Method = "PUT")
    (hc : ToLower L ((Split r.ContentType ';').headD "") ≠ "application/json") :
    Check L r a ps = ({ newResult r a ps with Status := StatusBadRequest },
      some ((Split r.ContentType ';').headD "" ++ " is not supported by this API")) := by
  unfold Check
  simp only [hp, hq, if_pos hm, if_neg hc]

theorem Check_json (L : Lib) (r : Request) (a : API) (ps : GoMap String)
    (hp : (checkParams L (newResult r a ps)).2 = none)
    (hq : (checkQueries L (newResult r a ps)).2 = none)
    (hm : r.Method = "POST" ∨ r.Method = "PUT")
    (hc : ToLower L ((Split r.ContentType ';').headD "") = "application/json") :
    Check L r a ps =
      match (checkPayloadJSON L (newResult r a ps)).2 with
      | some err => ({ newResult r a ps with Status := StatusBadRequest }, some err)
      | none => (newResult r a ps, none) := by
  unfold Check
  simp only [hp, hq, if_pos hm, if_pos hc]

/-- The maps of the result `Check` returns are the nil maps of `newResult`:
what the stages store goes to their own copies. -/
theorem Check_maps_nil (L : Lib) (r : Request) (a : API) (ps : GoMap String) :
    (Check L r a ps).1.Params = none ∧ (Check L r a ps).1.Queries = none ∧
      (Check L r a ps).1.Payload = none := by
  unfold Check
  simp only
  split
  · exact ⟨rfl, rfl, rfl⟩
  · split
    · exact ⟨rfl, rfl, rfl⟩
    · split
      · split
        · split <;> exact ⟨rfl, rfl, rfl⟩
        · exact ⟨rfl, rfl, rfl⟩
      · exact ⟨rfl, rfl, rfl⟩

/-- The status is 400 exactly when there is an error, and 0 otherwise. -/
theorem Check_status (L : Lib) (r : Request) (a : API) (ps : GoMap String) :
    (Check L r a ps).1.Status = if (Check L r a ps).2 = none then 0 else 400 := by
  unfold Check
  simp only
  split
  · simp [StatusBadRequest]
  · split
    · simp [StatusBadRequest]
    · split
      · split
        · split <;> simp [StatusBadRequest, newResult]
        · simp [StatusBadRequest]
      · simp [newResult]

/-! ## C1 -/

/-- C1, the code at the failing input: `GET /users/5` with the param `id`
declared `int` and given as `5`. `Check` returns no error, `checkParams` did
store 5 under `id` in its own copy, and the returned `Result.Params` is the
nil map, of which `id` is not a key. -/
theorem C1_declared_param_not_in_result :
    (Check demoLib ⟨"GET", "/users/5", "", .ok ""⟩ ⟨⟨[⟨"id", "int", false⟩], [], []⟩⟩
        [("id", "5")]).2 = none ∧
    (checkParams demoLib (newResult ⟨"GET", "/users/5", "", .ok ""⟩
        ⟨⟨[⟨"id", "int", false⟩], [], []⟩⟩ [("id", "5")])).1.Params = some [("id", .int 5)] ∧
    (Check demoLib ⟨"GET", "/users/5", "", .ok ""⟩ ⟨⟨[⟨"id", "int", false⟩], [], []⟩⟩
        [("id", "5")]).1.Params = none ∧
    "id" ∉ keysOf (Check demoLib ⟨"GET", "/users/5", "", .ok ""⟩
        ⟨⟨[⟨"id", "int", false⟩], [], []⟩⟩ [("id", "5")]).1.Params :=
  ⟨by decide, rfl, rfl, by decide⟩

/-! ## C4 -/

/-- C4: the error of `Check` is that of the first failing stage. If
`checkParams` fails with `e`, `Check` returns `e`, and so does it for any
other request and any schema with the same declared params (no URL, query
declaration, method, content type or body is looked at). Otherwise, if
`checkQueries` fails with `e`, `Check` returns `e`, and so does it for any
other request with the same URL and any schema with the same declared params
and queries (no method, content type, body or payload declaration is looked
at). -/
theorem C4_first_failing_stage (L : Lib) (r : Request) (a : API) (ps : GoMap String) :
    (∀ e, (checkParams L (newResult r a ps)).2 = some e →
      (Check L r a ps).2 = some e ∧
      ∀ (r2 : Request) (a2 : API), a2.Validate.Params = a.Validate.Params →
        (Check L r2 a2 ps).2 = some e ∧ (Check L r2 a2 ps).1.Status = 400) ∧
    ((checkParams L (newResult r a ps)).2 = none →
      ∀ e, (checkQueries L (newResult r a ps)).2 = some e →
        (Check L r a ps).2 = some e ∧
        ∀ (r2 : Request) (a2 : API), r2.URL = r.URL →
          a2.Validate.Params = a.Validate.Params →
          a2.Validate.Queries = a.Validate.Queries →
          (Check L r2 a2 ps).2 = some e ∧ (Check L r2 a2 ps).1.Status = 400) := by
  refine ⟨fun e he => ⟨?_, fun r2 a2 h2 => ?_⟩, fun hp e he => ⟨?_, fun r2 a2 hu h2 h3 => ?_⟩⟩
  · rw [Check_params_err L r a ps e he]
  · have := (checkParams_err_congr L r r2 a a2 ps h2).trans he
    rw [Check_params_err L r2 a2 ps e this]
    exact ⟨rfl, rfl⟩
  · rw [Check_queries_err L r a ps e hp he]
  · have h1 := (checkParams_err_congr L r r2 a a2 ps h2).trans hp
    have h4 := (checkQueries_err_congr L r r2 a a2 ps ps hu h3).trans he
    rw [Check_queries_err L r2 a2 ps e h1 h4]
    exact ⟨rfl, rfl⟩

/-- C4 at a request whose param `id` is not an integer and at one whose
query `n` is not. -/
theorem C4_first_failing_stage_witness :
    (Check demoLib ⟨"POST", "/u?n=z", "text/plain", .ok ""⟩
        ⟨⟨[⟨"id", "int", false⟩], [⟨"n", "int", false⟩], []⟩⟩ [("id", "x")]).2 =
      some "cannot convert x to int" ∧
    (Check demoLib ⟨"POST", "/u?n=z", "text/plain", .ok ""⟩
        ⟨⟨[⟨"id", "int", false⟩], [⟨"n", "int", false⟩], []⟩⟩ [("id", "1")]).2 =
      some "cannot convert z to int" :=
  ⟨((C4_first_failing_stage demoLib ⟨"POST", "/u?n=z", "text/plain", .ok ""⟩
        ⟨⟨[⟨"id", "int", false⟩], [⟨"n", "int", false⟩], []⟩⟩ [("id", "x")]).1
      "cannot convert x to int" (by decide)).1,
   ((C4_first_failing_stage demoLib ⟨"POST", "/u?n=z", "text/plain", .ok ""⟩
        ⟨⟨[⟨"id", "int", false⟩], [⟨"n", "int", false⟩], []⟩⟩ [("id", "1")]).2
      (by decide) "cannot convert z to int" (by decide)).1⟩

/-! ## C5 and C6 -/

/-- C5: `Check` returns status 400 whenever it returns an error, whatever
the error, and only then. -/
theorem C5_error_iff_status_400 (L : Lib) (r : Request) (a : API) (ps : GoMap String) :
    (Check L r a ps).2 ≠ none ↔ (Check L r a ps).1.Status = 400 := by
  rw [Check_status]
  split <;> simp_all

/-- C6 as stated fails: on `GET /` with an empty schema `Check` returns no
error and the status 0, not 200. -/
theorem C6_counterexample :
    (Check demoLib ⟨"GET", "/", "", .ok ""⟩ ⟨⟨[], [], []⟩⟩ []).2 = none ∧
    (Check demoLib ⟨"GET", "/", "", .ok ""⟩ ⟨⟨[], [], []⟩⟩ []).1.Status ≠ 200 :=
  ⟨by decide, by decide⟩

/-- C6, amended: when `Check` returns no error, the status of the result is
0, the zero value `newResult` gives it; no success status is assigned. -/
theorem C6_success_status_zero (L : Lib) (r : Request) (a : API) (ps : GoMap String)
    (h : (Check L r a ps).2 = none) : (Check L r a ps).1.Status = 0 := by
  rw [Check_status, if_pos h]

/-- C6, amended, at `POST /u?n=3` with a JSON body. -/
theorem C6_success_status_zero_witness :
    (Check demoLib ⟨"POST", "/u?n=3", "application/json", .ok "null"⟩
        ⟨⟨[], [⟨"n", "int", false⟩], [⟨"name", "string", true⟩]⟩⟩ []).2 = none ∧
    (Check demoLib ⟨"POST", "/u?n=3", "application/json", .ok "null"⟩
        ⟨⟨[], [⟨"n", "int", false⟩], [⟨"name", "string", true⟩]⟩⟩ []).1.Status = 0 :=
  ⟨by decide, C6_success_status_zero demoLib _ _ _ (by decide)⟩

/-! ## C8 -/

/-- C8: for a method other than POST and PUT, `Check` returns the same
status, error and maps whatever the Content-Type header, the body and the
declared payload fields are, and when the params and queries stages succeed
it returns no error and a payload map without keys. -/
theorem C8_other_methods_ignore_payload (L : Lib) (r : Request) (a : API) (ps : GoMap String)
    (hpost : r.Method ≠ "POST") (hput : r.Method ≠ "PUT") :
    (∀ (contentType : String) (body : Except String String) (payload : List Field),
      (Check L (r.withBody contentType body) (a.withPayload payload) ps).1.Status =
          (Check L r a ps).1.Status ∧
      (Check L (r.withBody contentType body) (a.withPayload payload) ps).2 = (Check L r a ps).2 ∧
      (Check L (r.withBody contentType body) (a.withPayload payload) ps).1.Params =
          (Check L r a ps).1.Params ∧
      (Check L (r.withBody contentType body) (a.withPayload payload) ps).1.Queries =
          (Check L r a ps).1.Queries ∧
      (Check L (r.withBody contentType body) (a.withPayload payload) ps).1.Payload =
          (Check L r a ps).1.Payload) ∧
    ((checkParams L (newResult r a ps)).2 = none → (checkQueries L (newResult r a ps)).2 = none →
      (Check L r a ps).2 = none ∧ keysOf (Check L r a ps).1.Payload = []) := by
  have hm : ¬ (r.Method = "POST" ∨ r.Method = "PUT") := by
    rintro (h | h)
    · exact hpost h
    · exact hput h
  constructor
  · intro ct body payload
    have hp := checkParams_err_congr L r (r.withBody ct body) a (a.withPayload payload) ps rfl
    have hq := checkQueries_err_congr L r (r.withBody ct body) a (a.withPayload payload) ps ps
      rfl rfl
    have hm2 : ¬ ((r.withBody ct body).Method = "POST" ∨ (r.withBody ct body).Method = "PUT") := hm
    have e : (Check L (r.withBody ct body) (a.withPayload payload) ps).2 = (Check L r a ps).2 := by
      cases h1 : (checkParams L (newResult r a ps)).2 with
      | some e1 =>
        rw [Check_params_err L r a ps e1 h1, Check_params_err L _ _ ps e1 (hp.trans h1)]
      | none =>
        cases h2 : (checkQueries L (newResult r a ps)).2 with
        | some e2 =>
          rw [Check_queries_err L r a ps e2 h1 h2,
            Check_queries_err L _ _ ps e2 (hp.trans h1) (hq.trans h2)]
        | none =>
          rw [Check_no_body L r a ps h1 h2 hm,
            Check_no_body L _ _ ps (hp.trans h1) (hq.trans h2) hm2]
    have n1 := Check_maps_nil L r a ps
    have n2 := Check_maps_nil L (r.withBody ct body) (a.withPayload payload) ps
    refine ⟨?_, e, ?_, ?_, ?_⟩
    · rw [Check_status, Check_status, e]
    · rw [n1.1, n2.1]
    · rw [n1.2.1, n2.2.1]
    · rw [n1.2.2, n2.2.2]
  · intro h1 h2
    rw [Check_no_body L r a ps h1 h2 hm]
    exact ⟨rfl, rfl⟩

/-- C8 at `GET /u?n=3` with a payload field declared. -/
theorem C8_other_methods_ignore_payload_witness :
    (Check demoLib ⟨"GET", "/u?n=3", "", .ok ""⟩
        ⟨⟨[], [⟨"n", "int", false⟩], [⟨"name", "string", false⟩]⟩⟩ []).2 = none ∧
    keysOf (Check demoLib ⟨"GET", "/u?n=3", "", .ok ""⟩
        ⟨⟨[], [⟨"n", "int", false⟩], [⟨"name", "string", false⟩]⟩⟩ []).1.Payload = [] :=
  (C8_other_methods_ignore_payload demoLib ⟨"GET", "/u?n=3", "", .ok ""⟩
    ⟨⟨[], [⟨"n", "int", false⟩], [⟨"name", "string", false⟩]⟩⟩ [] (by decide) (by decide)).2
    (by decide) (by decide)

/-! ## The Content-Type header -/

theorem splitChars_head (sep : Char) (cs : List Char) :
    ∃ ws, splitChars sep cs = cs.takeWhile (fun c => c ≠ sep) :: ws := by
  induction cs with
  | nil => exact ⟨[], rfl⟩
  | cons c t ih =>
    obtain ⟨ws, hws⟩ := ih
    unfold splitChars
    by_cases h : c = sep
    · simp [h]
    · simp [h, hws]

theorem Split_head (header : String) :
    (Split header ';').headD "" = contentTypeCut header := by
  obtain ⟨ws, hws⟩ := splitChars_head ';' header.data
  unfold Split contentTypeCut
  rw [hws]
  rfl

theorem splitChars_length_of_mem (sep : Char) (cs : List Char) (h : sep ∈ cs) :
    2 ≤ (splitChars sep cs).length := by
  induction cs with
  | nil => simp at h
  | cons c t ih =>
    unfold splitChars
    by_cases hc : c = sep
    · obtain ⟨ws, hws⟩ := splitChars_head sep t
      simp [hc, hws]
    · have ht : sep ∈ t := by
        rcases List.mem_cons.1 h with h1 | h1
        · exact absurd h1.symm hc
        · exact h1
      have := ih ht
      obtain ⟨ws, hws⟩ := splitChars_head sep t
      rw [hws] at this
      simp only [if_neg hc, hws]
      exact this

/-- A text in which the separator occurs splits in two pieces at least. -/
theorem Split_length_of_mem (s : String) (sep : Char) (h : sep ∈ s.data) :
    2 ≤ (Split s sep).length := by
  unfold Split
  rw [List.length_map]
  exact splitChars_length_of_mem sep s.data h

theorem lowerRune_eq_toLower (L : Lib) (c : Char) (h : (Char.toLower c).toNat < 128) :
    lowerRune L c = Char.toLower c := by
  unfold lowerRune
  unfold Char.toLower at h ⊢
  simp only at h ⊢
  by_cases hu : 65 ≤ c.toNat ∧ c.toNat ≤ 90
  · have hu2 : c.toNat ≥ 65 ∧ c.toNat ≤ 90 := hu
    rw [if_pos hu, if_pos hu2]
  · have hu2 : ¬ (c.toNat ≥ 65 ∧ c.toNat ≤ 90) := hu
    rw [if_neg hu2] at h
    rw [if_neg hu, if_neg hu2, if_pos h]

theorem ToLower_of_isJSONAnyCase (L : Lib) (s : String) (h : isJSONAnyCase s = true) :
    ToLower L s = "application/json" := by
  unfold isJSONAnyCase at h
  have h1 : s.data.map Char.toLower = "application/json".data := of_decide_eq_true h
  have h2 : s.data.map (lowerRune L) = s.data.map Char.toLower := by
    apply List.map_congr_left
    intro c hc
    apply lowerRune_eq_toLower
    have hmem : Char.toLower c ∈ "application/json".data := by
      rw [← h1]
      exact List.mem_map_of_mem _ hc
    have hall : ∀ x ∈ "application/json".data, x.toNat < 128 := by decide
    exact hall _ hmem
  unfold ToLower
  rw [h2, h1]

/-! ## C7 -/

/-- C7: for a POST or PUT request whose params and queries stages succeed and
a schema with at least one payload field. If the Content-Type header, cut at
its first `;` and lower-cased, is not `application/json`, then whatever the
body is `Check` fails with status 400 and the error "<the cut header> is not
supported by this API". If the cut header is `application/json` in some
letter case, the error of `Check` is the one of `checkPayloadJSON`. -/
theorem C7_content_type (L : Lib) (r : Request) (a : API) (ps : GoMap String)
    (hm : r.Method = "POST" ∨ r.Method = "PUT")
    (hp : (checkParams L (newResult r a ps)).2 = none)
    (hq : (checkQueries L (newResult r a ps)).2 = none)
    (_hpay : a.Validate.Payload ≠ []) :
    (ToLower L (contentTypeCut r.ContentType) ≠ "application/json" →
      ∀ body : Except String String,
        (Check L (r.withBody r.ContentType body) a ps).2 =
            some (contentTypeCut r.ContentType ++ " is not supported by this API") ∧
        (Check L (r.withBody r.ContentType body) a ps).1.Status = 400) ∧
    (isJSONAnyCase (contentTypeCut r.ContentType) = true →
      (Check L r a ps).2 = (checkPayloadJSON L (newResult r a ps)).2) := by
  constructor
  · intro hc body
    have hp2 := (checkParams_err_congr L r (r.withBody r.ContentType body) a a ps rfl).trans hp
    have hq2 := (checkQueries_err_congr L r (r.withBody r.ContentType body) a a ps ps
      rfl rfl).trans hq
    have hc2 : ToLower L ((Split (r.withBody r.ContentType body).ContentType ';').headD "") ≠
        "application/json" := by
      rw [Split_head]
      exact hc
    rw [Check_unsupported L _ a ps hp2 hq2 hm hc2, Split_head]
    exact ⟨rfl, rfl⟩
  · intro hc
    have hc2 : ToLower L ((Split r.ContentType ';').headD "") = "application/json" := by
      rw [Split_head]
      exact ToLower_of_isJSONAnyCase L _ hc
    rw [Check_json L r a ps hp hq hm hc2]
    split
    · rename_i e he
      exact he.symm
    · rename_i he
      exact he.symm

/-- C7 at a POST with `text/plain` and an unreadable body, and at a POST with
`Application/JSON; charset=utf-8`. -/
theorem C7_content_type_witness :
    (Check demoLib (Request.withBody ⟨"POST", "/u", "text/plain", .ok ""⟩ "text/plain"
        (.error "unexpected EOF")) ⟨⟨[], [], [⟨"name", "string", false⟩]⟩⟩ []).2 =
      some ("text/plain" ++ " is not supported by this API") ∧
    (Check demoLib ⟨"POST", "/u", "Application/JSON; charset=utf-8", .ok "null"⟩
        ⟨⟨[], [], [⟨"name", "string", false⟩]⟩⟩ []).2 =
      (checkPayloadJSON demoLib (newResult
        ⟨"POST", "/u", "Application/JSON; charset=utf-8", .ok "null"⟩
        ⟨⟨[], [], [⟨"name", "string", false⟩]⟩⟩ [])).2 :=
  ⟨((C7_content_type demoLib ⟨"POST", "/u", "text/plain", .ok ""⟩
        ⟨⟨[], [], [⟨"name", "string", false⟩]⟩⟩ [] (by decide) (by decide) (by decide)
        (by decide)).1 (by decide) (.error "unexpected EOF")).1,
   (C7_content_type demoLib ⟨"POST", "/u", "Application/JSON; charset=utf-8", .ok "null"⟩
        ⟨⟨[], [], [⟨"name", "string", false⟩]⟩⟩ [] (by decide) (by decide) (by decide)
        (by decide)).2 (by decide)⟩

/-! ## The loops, field by field -/

theorem queriesLoop_append (L : Lib) (list : GoMap String) (pre rest : List Field)
    (m0 : GoMap Value) :
    queriesLoop L list (pre ++ rest) m0 =
      match queriesLoop L list pre m0 with
      | (m, none) => queriesLoop L list rest m
      | (m, some e) => (m, some e) := by
  induction pre generalizing m0 with
  | nil => simp [queriesLoop]
  | cons q qs ih =>
    simp only [List.cons_append, queriesLoop]
    split
    · rfl
    · split
      · split
        · rfl
        · exact ih _
      · exact ih _

theorem payloadLoop_append (L : Lib) (data : GoMap Value) (pre rest : List Field)
    (m0 : GoMap Value) :
    payloadLoop L data (pre ++ rest) m0 =
      match payloadLoop L data pre m0 with
      | (m, none) => payloadLoop L data rest m
      | (m, some e) => (m, some e) := by
  induction pre generalizing m0 with
  | nil => simp [payloadLoop]
  | cons q qs ih =>
    simp only [List.cons_append, payloadLoop]
    split
    · rfl
    · split
      · exact ih _
      · split
        · rfl
        · exact ih _

theorem queriesLoop_err_cases (L : Lib) (list : GoMap String) (fields : List Field)
    (m0 : GoMap Value) :
    (∃ m, queriesLoop L list fields m0 = (m, none)) ∨
      ∃ m e, queriesLoop L list fields m0 = (m, some e) := by
  rcases h : queriesLoop L list fields m0 with ⟨m, _ | e⟩
  · exact Or.inl ⟨m, rfl⟩
  · exact Or.inr ⟨m, e, rfl⟩

theorem GoMap.mem_keys_set {α : Type} (m : GoMap α) (k : String) (v : α) :
    k ∈ GoMap.keys (GoMap.set m k v) := by
  induction m with
  | nil => simp [GoMap.set, GoMap.keys]
  | cons p rest ih =>
    obtain ⟨k0, v0⟩ := p
    unfold GoMap.set
    by_cases h : k0 = k
    · simp [h, GoMap.keys]
    · simp only [if_neg h]
      simp only [GoMap.keys, List.map_cons, List.mem_cons] at ih ⊢
      exact Or.inr ih

theorem GoMap.find_set {α : Type} (m : GoMap α) (k : String) (v : α) :
    GoMap.find (GoMap.set m k v) k = some v := by
  induction m with
  | nil => simp [GoMap.set, GoMap.find]
  | cons p rest ih =>
    obtain ⟨k0, v0⟩ := p
    unfold GoMap.set
    by_cases h : k0 = k
    · simp [h, GoMap.find]
    · simp [h, GoMap.find, ih]

theorem isBlank_get_iff (data : GoMap Value) (key : String) :
    isBlank (GoMap.get .nil data key) = true ↔ absentOrEmpty data key := by
  unfold GoMap.get absentOrEmpty
  cases h : GoMap.find data key with
  | none => simp [isBlank]
  | some v => cases v <;> simp [isBlank]

theorem checkPayloadJSON_eq (L : Lib) (r : Result) (data : GoMap Value)
    (hne : r.a.Validate.Payload ≠ []) (hd : parseBody L r.r = .ok data) :
    (checkPayloadJSON L r).1.Payload = some (payloadLoop L data r.a.Validate.Payload []).1 ∧
      (checkPayloadJSON L r).2 = (payloadLoop L data r.a.Validate.Payload []).2 := by
  unfold checkPayloadJSON
  have : ¬ r.a.Validate.Payload.length ≤ 0 := by
    cases h : r.a.Validate.Payload with
    | nil => exact absurd h hne
    | cons x xs => simp
  rw [if_neg this, hd]
  exact ⟨rfl, rfl⟩

theorem checkQueries_eq (L : Lib) (r : Result) (hurl : 2 ≤ (Split r.r.URL '?').length) :
    (checkQueries L r).1.Queries =
        some (queriesLoop L (urlQueryList L r.r.URL) r.a.Validate.Queries []).1 ∧
      (checkQueries L r).2 = (queriesLoop L (urlQueryList L r.r.URL) r.a.Validate.Queries []).2 := by
  unfold checkQueries urlQueryList
  have : ¬ (Split r.r.URL '?').length < 2 := by omega
  rw [if_neg this]
  exact ⟨rfl, rfl⟩

/-- On a URL without `?` the queries stage returns no error, whatever is
declared: it returns before its validation loop. -/
theorem checkQueries_without_query_string (L : Lib) (r : Result)
    (h : (Split r.r.URL '?').length < 2) : (checkQueries L r).2 = none := by
  rw [checkQueries_err, if_pos h]

/-! ## C2 -/

/-- C2 as stated fails: on `GET /u?a=x` with the queries `a` (int) and `b`
(non-nullable) declared, the params stage succeeds and the key `b` does not
occur in the query string, yet the error is the conversion error of `a`, the
first failing field, not "b's queries can't be empty". -/
theorem C2_counterexample :
    (checkParams demoLib (newResult ⟨"GET", "/u?a=x", "", .ok ""⟩
        ⟨⟨[], [⟨"a", "int", false⟩, ⟨"b", "string", false⟩], []⟩⟩ [])).2 = none ∧
    GoMap.find (urlQueryList demoLib "/u?a=x") "b" = none ∧
    (Check demoLib ⟨"GET", "/u?a=x", "", .ok ""⟩
        ⟨⟨[], [⟨"a", "int", false⟩, ⟨"b", "string", false⟩], []⟩⟩ []).2 =
      some "cannot convert x to int" ∧
    (Check demoLib ⟨"GET", "/u?a=x", "", .ok ""⟩
        ⟨⟨[], [⟨"a", "int", false⟩, ⟨"b", "string", false⟩], []⟩⟩ []).2 ≠
      some "b's queries can't be empty" :=
  ⟨by decide, by decide, by decide, by decide⟩

/-- C2, amended: for a request whose params stage succeeds and whose URL has
a `?`, and a schema that declares a non-nullable query field whose lookup in
the query string is empty (the key does not occur, or has an empty value):
`Check` fails with status 400 and the error of the queries stage; that error
is "<key>'s queries can't be empty" when the query fields declared before it
pass; and `Check` returns the same error for any method, Content-Type, body
and payload declaration (the payload stage is not attempted). -/
theorem C2_missing_query_fails (L : Lib) (r : Request) (a : API) (ps : GoMap String)
    (pre post : List Field) (query : Field)
    (hp : (checkParams L (newResult r a ps)).2 = none)
    (hurl : '?' ∈ r.URL.data)
    (hs : a.Validate.Queries = pre ++ query :: post)
    (hn : query.Nullable = false)
    (hmiss : GoMap.get "" (urlQueryList L r.URL) query.Key = "") :
    (∃ e, (Check L r a ps).2 = some e ∧ (checkQueries L (newResult r a ps)).2 = some e) ∧
    (Check L r a ps).1.Status = 400 ∧
    ((queriesLoop L (urlQueryList L r.URL) pre []).2 = none →
      (Check L r a ps).2 = some (query.Key ++ "'s queries can't be empty")) ∧
    (∀ (r2 : Request) (a2 : API), r2.URL = r.URL → a2.Validate.Params = a.Validate.Params →
      a2.Validate.Queries = a.Validate.Queries → (Check L r2 a2 ps).2 = (Check L r a ps).2) := by
  have hq := (checkQueries_eq L (newResult r a ps) (Split_length_of_mem _ _ hurl)).2
  have hloop : queriesLoop L (urlQueryList L r.URL) (query :: post) =
      fun m => (m, some (query.Key ++ "'s queries can't be empty")) := by
    funext m
    unfold queriesLoop
    rw [if_pos ⟨hmiss, hn⟩]
  have hq2 : (checkQueries L (newResult r a ps)).2 =
      (queriesLoop L (urlQueryList L r.URL) (pre ++ query :: post) []).2 := by
    rw [hq]
    show (queriesLoop L (urlQueryList L r.URL) a.Validate.Queries []).2 = _
    rw [hs]
  rw [queriesLoop_append, hloop] at hq2
  have hex : ∃ e, (checkQueries L (newResult r a ps)).2 = some e := by
    rcases queriesLoop_err_cases L (urlQueryList L r.URL) pre [] with ⟨m, hm⟩ | ⟨m, e, hm⟩
    · rw [hm] at hq2
      exact ⟨_, hq2⟩
    · rw [hm] at hq2
      exact ⟨_, hq2⟩
  obtain ⟨e, he⟩ := hex
  have hC := Check_queries_err L r a ps e hp he
  refine ⟨⟨e, ?_, he⟩, ?_, ?_, ?_⟩
  · rw [hC]
  · rw [hC]
    rfl
  · intro hpre
    rw [hC, ← he, hq2]
    rcases queriesLoop_err_cases L (urlQueryList L r.URL) pre [] with ⟨m, hm⟩ | ⟨m, e2, hm⟩
    · rw [hm]
    · rw [hm] at hpre
      cases hpre
  · intro r2 a2 hu h2 h3
    have h1 := (checkParams_err_congr L r r2 a a2 ps h2).trans hp
    have h4 := (checkQueries_err_congr L r r2 a a2 ps ps hu h3).trans he
    rw [Check_queries_err L r2 a2 ps e h1 h4, hC]

/-- C2, amended, at `GET /u?a=1` with `a` and then the non-nullable `b`
declared. -/
theorem C2_missing_query_fails_witness :
    (Check demoLib ⟨"GET", "/u?a=1", "", .ok ""⟩
        ⟨⟨[], [⟨"a", "int", false⟩, ⟨"b", "string", false⟩], []⟩⟩ []).1.Status = 400 ∧
    (Check demoLib ⟨"GET", "/u?a=1", "", .ok ""⟩
        ⟨⟨[], [⟨"a", "int", false⟩, ⟨"b", "string", false⟩], []⟩⟩ []).2 =
      some ("b" ++ "'s queries can't be empty") :=
  ⟨(C2_missing_query_fails demoLib ⟨"GET", "/u?a=1", "", .ok ""⟩
      ⟨⟨[], [⟨"a", "int", false⟩, ⟨"b", "string", false⟩], []⟩⟩ [] [⟨"a", "int", false⟩] []
      ⟨"b", "string", false⟩ (by decide) (by decide) rfl rfl (by decide)).2.1,
   (C2_missing_query_fails demoLib ⟨"GET", "/u?a=1", "", .ok ""⟩
      ⟨⟨[], [⟨"a", "int", false⟩, ⟨"b", "string", false⟩], []⟩⟩ [] [⟨"a", "int", false⟩] []
      ⟨"b", "string", false⟩ (by decide) (by decide) rfl rfl (by decide)).2.2.1 (by decide)⟩

theorem payloadLoop_cons (L : Lib) (data : GoMap Value) (body : Field) (rest : List Field)
    (m : GoMap Value) :
    payloadLoop L data (body :: rest) m =
      if body.Nullable = false ∧ isBlank (GoMap.get .nil data body.Key) = true then
        (m, some (body.Key ++ "'s key is required in payload"))
      else if isBlank (GoMap.get .nil data body.Key) = true then
        payloadLoop L data rest (GoMap.set m body.Key .nil)
      else
        match convert L body.Type_ (GoMap.get .nil data body.Key) with
        | (_, some err) => (m, some err)
        | (value, none) => payloadLoop L data rest (GoMap.set m body.Key value) := rfl

theorem queriesLoop_cons (L : Lib) (list : GoMap String) (query : Field) (rest : List Field)
    (m : GoMap Value) :
    queriesLoop L list (query :: rest) m =
      if GoMap.get "" list query.Key = "" ∧ query.Nullable = false then
        (m, some (query.Key ++ "'s queries can't be empty"))
      else if GoMap.get "" list query.Key ≠ "" then
        match convert L query.Type_ (.string (GoMap.get "" list query.Key)) with
        | (_, some err) => (m, some err)
        | (value, none) => queriesLoop L list rest (GoMap.set m query.Key value)
      else queriesLoop L list rest (GoMap.set m query.Key .nil) := rfl

/-! ## C9 -/

/-- C9: in `checkPayloadJSON`, with the body decoded to `data`, for a
declared payload field `body` reached with the map `m` built from the fields
before it. If the key is absent from `data` (or null, or the empty string)
and the field is non-nullable, the stage fails with "<key>'s key is required
in payload". If it is absent (or null, or empty) and the field is nullable,
nil is stored under the key, whatever the declared type, and the loop goes on
with the next field. Otherwise `convert(type, value)` decides: its error
fails the stage, its value is stored under the key and the loop goes on. -/
theorem C9_payload_field (L : Lib) (r : Result) (data : GoMap Value)
    (pre post : List Field) (body : Field) (m : GoMap Value)
    (hs : r.a.Validate.Payload = pre ++ body :: post)
    (hd : parseBody L r.r = .ok data)
    (hpre : payloadLoop L data pre [] = (m, none)) :
    (absentOrEmpty data body.Key → body.Nullable = false →
      (checkPayloadJSON L r).2 = some (body.Key ++ "'s key is required in payload")) ∧
    (absentOrEmpty data body.Key → body.Nullable = true →
      GoMap.find (GoMap.set m body.Key .nil) body.Key = some .nil ∧
      (checkPayloadJSON L r).1.Payload =
        some (payloadLoop L data post (GoMap.set m body.Key .nil)).1 ∧
      (checkPayloadJSON L r).2 = (payloadLoop L data post (GoMap.set m body.Key .nil)).2) ∧
    (¬ absentOrEmpty data body.Key → ∀ v : Value,
      (∀ e, convert L body.Type_ (GoMap.get .nil data body.Key) = (v, some e) →
        (checkPayloadJSON L r).2 = some e) ∧
      (convert L body.Type_ (GoMap.get .nil data body.Key) = (v, none) →
        GoMap.find (GoMap.set m body.Key v) body.Key = some v ∧
        (checkPayloadJSON L r).1.Payload =
          some (payloadLoop L data post (GoMap.set m body.Key v)).1 ∧
        (checkPayloadJSON L r).2 = (payloadLoop L data post (GoMap.set m body.Key v)).2)) := by
  have hne : r.a.Validate.Payload ≠ [] := by
    rw [hs]
    simp
  obtain ⟨e1, e2⟩ := checkPayloadJSON_eq L r data hne hd
  rw [hs, payloadLoop_append, hpre] at e1 e2
  simp only at e1 e2
  rw [e1, e2]
  refine ⟨fun hab hn => ?_, fun hab hn => ⟨GoMap.find_set _ _ _, ?_⟩, fun hab v => ⟨fun e hc => ?_,
    fun hc => ⟨GoMap.find_set _ _ _, ?_⟩⟩⟩
  · have hb := (isBlank_get_iff data body.Key).2 hab
    rw [payloadLoop_cons, if_pos ⟨hn, hb⟩]
  · have hb := (isBlank_get_iff data body.Key).2 hab
    have hnn : ¬ (body.Nullable = false ∧ isBlank (GoMap.get .nil data body.Key) = true) := by
      simp [hn]
    rw [payloadLoop_cons, if_neg hnn, if_pos hb]
    exact ⟨rfl, rfl⟩
  · have hb : ¬ isBlank (GoMap.get .nil data body.Key) = true :=
      fun h => hab ((isBlank_get_iff data body.Key).1 h)
    rw [payloadLoop_cons, if_neg (fun h => hb h.2), if_neg hb, hc]
  · have hb : ¬ isBlank (GoMap.get .nil data body.Key) = true :=
      fun h => hab ((isBlank_get_iff data body.Key).1 h)
    rw [payloadLoop_cons, if_neg (fun h => hb h.2), if_neg hb, hc]
    exact ⟨rfl, rfl⟩

/-- C9 at the body `{"name":"bob","age":41}` and the nullable field `nick`,
declared after `name` and before `age`: nil is stored under `nick`. -/
theorem C9_payload_field_witness :
    (checkPayloadJSON demoLib (newResult
        ⟨"POST", "/u", "application/json", .ok "\x7b\"name\":\"bob\",\"age\":41\x7d"⟩
        ⟨⟨[], [], [⟨"name", "string", false⟩, ⟨"nick", "string", true⟩, ⟨"age", "int", false⟩]⟩⟩
        [])).1.Payload =
      some [("name", .string "bob"), ("nick", .nil), ("age", .int 41)] :=
  ((C9_payload_field demoLib (newResult
        ⟨"POST", "/u", "application/json", .ok "\x7b\"name\":\"bob\",\"age\":41\x7d"⟩
        ⟨⟨[], [], [⟨"name", "string", false⟩, ⟨"nick", "string", true⟩, ⟨"age", "int", false⟩]⟩⟩
        [])
      [("name", .string "bob"), ("age", .float64 (.finite false 41 0))]
      [⟨"name", "string", false⟩] [⟨"age", "int", false⟩] ⟨"nick", "string", true⟩
      [("name", .string "bob")] rfl rfl rfl).2.1 (Or.inl rfl) rfl).2.1

/-! ## C10 -/

/-- C10: in `checkQueries`, for a URL with a query string and a declared
query field `query` reached with the map `m` built from the fields before it.
If the field is nullable and its lookup is the empty string, nil is stored
under its key, whatever the declared type, and the loop goes on with the next
field (so the stage ends without error when the field is the last one). If
the lookup is not empty, `convert(type, lookup)` decides: its error fails the
stage, its value is stored under the key and the loop goes on. -/
theorem C10_query_field (L : Lib) (r : Result) (pre post : List Field) (query : Field)
    (m : GoMap Value)
    (hurl : '?' ∈ r.r.URL.data)
    (hs : r.a.Validate.Queries = pre ++ query :: post)
    (hpre : queriesLoop L (urlQueryList L r.r.URL) pre [] = (m, none)) :
    (query.Nullable = true → GoMap.get "" (urlQueryList L r.r.URL) query.Key = "" →
      GoMap.find (GoMap.set m query.Key .nil) query.Key = some .nil ∧
      (checkQueries L r).1.Queries =
        some (queriesLoop L (urlQueryList L r.r.URL) post (GoMap.set m query.Key .nil)).1 ∧
      (checkQueries L r).2 =
        (queriesLoop L (urlQueryList L r.r.URL) post (GoMap.set m query.Key .nil)).2 ∧
      (post = [] → (checkQueries L r).2 = none)) ∧
    (GoMap.get "" (urlQueryList L r.r.URL) query.Key ≠ "" → ∀ v : Value,
      (∀ e, convert L query.Type_ (.string (GoMap.get "" (urlQueryList L r.r.URL) query.Key)) =
          (v, some e) → (checkQueries L r).2 = some e) ∧
      (convert L query.Type_ (.string (GoMap.get "" (urlQueryList L r.r.URL) query.Key)) =
          (v, none) →
        GoMap.find (GoMap.set m query.Key v) query.Key = some v ∧
        (checkQueries L r).1.Queries =
          some (queriesLoop L (urlQueryList L r.r.URL) post (GoMap.set m query.Key v)).1 ∧
        (checkQueries L r).2 =
          (queriesLoop L (urlQueryList L r.r.URL) post (GoMap.set m query.Key v)).2)) := by
  obtain ⟨e1, e2⟩ := checkQueries_eq L r (Split_length_of_mem _ _ hurl)
  rw [hs, queriesLoop_append, hpre] at e1 e2
  simp only at e1 e2
  rw [e1, e2]
  refine ⟨fun hn hl => ⟨GoMap.find_set _ _ _, ?_⟩, fun hl v => ⟨fun e hc => ?_,
    fun hc => ⟨GoMap.find_set _ _ _, ?_⟩⟩⟩
  · have h1 : ¬ (GoMap.get "" (urlQueryList L r.r.URL) query.Key = "" ∧
        query.Nullable = false) := by
      simp [hn]
    have h2 : ¬ GoMap.get "" (urlQueryList L r.r.URL) query.Key ≠ "" := fun h => h hl
    rw [queriesLoop_cons, if_neg h1, if_neg h2]
    refine ⟨rfl, rfl, ?_⟩
    rintro rfl
    rfl
  · rw [queriesLoop_cons, if_neg (fun h => hl h.1), if_pos hl, hc]
  · rw [queriesLoop_cons, if_neg (fun h => hl h.1), if_pos hl, hc]
    exact ⟨rfl, rfl⟩

/-- C10 at `/u?a=1&c=` with `a` (int), then the nullable `b` of the
unsupported type `uuid`, then the nullable `c`: the stage succeeds, with nil
stored under `b`. -/
theorem C10_query_field_witness :
    (checkQueries demoLib (newResult ⟨"GET", "/u?a=1&c=", "", .ok ""⟩
        ⟨⟨[], [⟨"a", "int", false⟩, ⟨"b", "uuid", true⟩, ⟨"c", "string", true⟩], []⟩⟩
        [])).1.Queries = some [("a", .int 1), ("b", .nil), ("c", .nil)] ∧
    (checkQueries demoLib (newResult ⟨"GET", "/u?a=1&c=", "", .ok ""⟩
        ⟨⟨[], [⟨"a", "int", false⟩, ⟨"b", "uuid", true⟩, ⟨"c", "string", true⟩], []⟩⟩
        [])).2 = none :=
  ⟨((C10_query_field demoLib (newResult ⟨"GET", "/u?a=1&c=", "", .ok ""⟩
        ⟨⟨[], [⟨"a", "int", false⟩, ⟨"b", "uuid", true⟩, ⟨"c", "string", true⟩], []⟩⟩ [])
      [⟨"a", "int", false⟩] [⟨"c", "string", true⟩] ⟨"b", "uuid", true⟩ [("a", .int 1)]
      (by decide) rfl rfl).1 rfl (by decide)).2.1,
   ((C10_query_field demoLib (newResult ⟨"GET", "/u?a=1&c=", "", .ok ""⟩
        ⟨⟨[], [⟨"a", "int", false⟩, ⟨"b", "uuid", true⟩, ⟨"c", "string", true⟩], []⟩⟩ [])
      [⟨"a", "int", false⟩] [⟨"c", "string", true⟩] ⟨"b", "uuid", true⟩ [("a", .int 1)]
      (by decide) rfl rfl).1 rfl (by decide)).2.2.1⟩

/-! ## C11 -/

/-- C11, the code at the failing input: the non-nullable query field declared
with the key `Id`, on `GET /u?id=5` and on `GET /u?Id=5`. The pair is stored
under `id`, the field is looked up under `Id` as declared, the lookup is
empty, and `Check` fails with "Id's queries can't be empty". -/
theorem C11_declared_key_not_lowercased (L : Lib) :
    GoMap.find (urlQueryList L "/u?id=5") "id" = some "5" ∧
    GoMap.find (urlQueryList L "/u?Id=5") "id" = some "5" ∧
    GoMap.get "" (urlQueryList L "/u?id=5") "Id" = "" ∧
    GoMap.get "" (urlQueryList L "/u?Id=5") "Id" = "" ∧
    Check L ⟨"GET", "/u?id=5", "", .ok ""⟩ ⟨⟨[], [⟨"Id", "int", false⟩], []⟩⟩ [] =
      ({ newResult ⟨"GET", "/u?id=5", "", .ok ""⟩ ⟨⟨[], [⟨"Id", "int", false⟩], []⟩⟩ [] with
          Status := 400 }, some "Id's queries can't be empty") ∧
    Check L ⟨"GET", "/u?Id=5", "", .ok ""⟩ ⟨⟨[], [⟨"Id", "int", false⟩], []⟩⟩ [] =
      ({ newResult ⟨"GET", "/u?Id=5", "", .ok ""⟩ ⟨⟨[], [⟨"Id", "int", false⟩], []⟩⟩ [] with
          Status := 400 }, some "Id's queries can't be empty") :=
  ⟨rfl, rfl, rfl, rfl, rfl, rfl⟩

/-! ## The pairs of a query string -/

theorem splitChars_of_not_mem (sep : Char) (cs : List Char) (h : sep ∉ cs) :
    splitChars sep cs = [cs] := by
  induction cs with
  | nil => rfl
  | cons c t ih =>
    have hc : c ≠ sep := fun e => h (by simp [e])
    have ht : sep ∉ t := fun e => h (List.mem_cons_of_mem _ e)
    unfold splitChars
    rw [if_neg hc, ih ht]

theorem splitChars_append_sep (sep : Char) (a b : List Char) (h : sep ∉ a) :
    splitChars sep (a ++ sep :: b) = a :: splitChars sep b := by
  induction a with
  | nil => simp [splitChars]
  | cons c t ih =>
    have hc : c ≠ sep := fun e => h (by simp [e])
    have ht : sep ∉ t := fun e => h (List.mem_cons_of_mem _ e)
    simp only [List.cons_append]
    rw [splitChars, if_neg hc, ih ht]

theorem Split_of_not_mem (q : String) (sep : Char) (h : sep ∉ q.data) : Split q sep = [q] := by
  unfold Split
  rw [splitChars_of_not_mem sep q.data h]
  rfl

theorem Split_key_value (k v : String) (hk : '=' ∉ k.data) (hv : '=' ∉ v.data) :
    Split (k ++ "=" ++ v) '=' = [k, v] := by
  unfold Split
  have hd : (k ++ "=" ++ v).data = k.data ++ '=' :: v.data := by
    simp [String.data_append]
  rw [hd, splitChars_append_sep '=' _ _ hk, splitChars_of_not_mem '=' _ hv]
  rfl

theorem Split_eq_head (q : String) : (Split q '=').headD "" = pairKey q := by
  obtain ⟨ws, hws⟩ := splitChars_head '=' q.data
  unfold Split pairKey
  rw [hws]
  rfl

theorem queryList_append (L : Lib) (pre rest : List String) (list : GoMap String) :
    queryList L (pre ++ rest) list = queryList L rest (queryList L pre list) := by
  induction pre generalizing list with
  | nil => rfl
  | cons q qs ih =>
    simp only [List.cons_append, queryList]
    split <;> exact ih _

theorem GoMap.find_set_ne {α : Type} (m : GoMap α) (k k2 : String) (v : α) (h : k ≠ k2) :
    GoMap.find (GoMap.set m k v) k2 = GoMap.find m k2 := by
  induction m with
  | nil => simp [GoMap.set, GoMap.find, h]
  | cons p rest ih =>
    obtain ⟨k0, v0⟩ := p
    unfold GoMap.set
    by_cases h0 : k0 = k
    · subst h0
      simp [GoMap.find, h]
    · simp only [if_neg h0, GoMap.find, ih]

theorem queryList_find_of_later (L : Lib) (post : List String) (list : GoMap String)
    (key : String) (h : ∀ p ∈ post, ToLower L (pairKey p) ≠ key) :
    GoMap.find (queryList L post list) key = GoMap.find list key := by
  induction post generalizing list with
  | nil => rfl
  | cons p ps ih =>
    have hp : ToLower L ((Split p '=').headD "") ≠ key := by
      rw [Split_eq_head]
      exact h p (by simp)
    have hps : ∀ q ∈ ps, ToLower L (pairKey q) ≠ key := fun q hq => h q (List.mem_cons_of_mem _ hq)
    simp only [queryList]
    split
    · rw [ih _ hps, GoMap.find_set_ne _ _ _ _ hp]
    · rw [ih _ hps, GoMap.find_set_ne _ _ _ _ hp]

/-! ## C12 -/

/-- C12: in the map `checkQueries` builds from the query string, a pair
without `=` is stored under its lower-cased text with its own unmodified text
as the value, and a pair `k=v` is stored under the lower-cased `k` with `v`
unmodified (in both cases unless a later pair has the same lower-cased key,
which then replaces it). On `/u?a=1&b` with `a` declared int and `b` a
nullable string, the stage maps `a` to the integer 1 and `b` to the string
`b`, and returns no error. -/
theorem C12_query_pairs (L : Lib) :
    (∀ (url : String) (pre post : List String) (q : String),
      queryPairs url = pre ++ q :: post → '=' ∉ q.data →
      (∀ p ∈ post, ToLower L (pairKey p) ≠ ToLower L q) →
      GoMap.find (urlQueryList L url) (ToLower L q) = some q) ∧
    (∀ (url : String) (pre post : List String) (k v : String),
      queryPairs url = pre ++ (k ++ "=" ++ v) :: post → '=' ∉ k.data → '=' ∉ v.data →
      (∀ p ∈ post, ToLower L (pairKey p) ≠ ToLower L k) →
      GoMap.find (urlQueryList L url) (ToLower L k) = some v) ∧
    ((checkQueries L (newResult ⟨"GET", "/u?a=1&b", "", .ok ""⟩
        ⟨⟨[], [⟨"a", "int", false⟩, ⟨"b", "string", true⟩], []⟩⟩ [])).1.Queries =
        some [("a", .int 1), ("b", .string "b")] ∧
      (checkQueries L (newResult ⟨"GET", "/u?a=1&b", "", .ok ""⟩
        ⟨⟨[], [⟨"a", "int", false⟩, ⟨"b", "string", true⟩], []⟩⟩ [])).2 = none) := by
  refine ⟨fun url pre post q hq hno hpost => ?_, fun url pre post k v hq hk hv hpost => ?_,
    rfl, rfl⟩
  · have hu : urlQueryList L url = queryList L (queryPairs url) [] := rfl
    rw [hu, hq, queryList_append, queryList, Split_of_not_mem q '=' hno]
    simp only [List.length_singleton, if_true, List.headD_cons]
    rw [queryList_find_of_later L post _ _ hpost, GoMap.find_set]
  · have hu : urlQueryList L url = queryList L (queryPairs url) [] := rfl
    rw [hu, hq, queryList_append, queryList, Split_key_value k v hk hv]
    have h2 : ¬ ([k, v].length = 1) := by simp
    simp only [if_neg h2, List.headD_cons]
    rw [queryList_find_of_later L post _ _ hpost]
    exact GoMap.find_set _ _ _

/-- C12 at `/u?a=1&Flag&c=2` and at `/u?Name=Bob`. -/
theorem C12_query_pairs_witness :
    GoMap.find (urlQueryList demoLib "/u?a=1&Flag&c=2") "flag" = some "Flag" ∧
    GoMap.find (urlQueryList demoLib "/u?Name=Bob") "name" = some "Bob" :=
  ⟨(C12_query_pairs demoLib).1 "/u?a=1&Flag&c=2" ["a=1"] ["c=2"] "Flag" (by decide) (by decide)
      (by decide),
   (C12_query_pairs demoLib).2.1 "/u?Name=Bob" [] [] "Name" "Bob" (by decide) (by decide)
      (by decide) (by decide)⟩

/-! ## Floats -/

theorem fmtFloat0_finite (neg : Bool) (mant : Nat) (exp : Int) :
    fmtFloat0 (.finite neg mant exp) =
      if neg = true then "-" ++ fmtNat (roundedMagnitude mant exp)
      else fmtNat (roundedMagnitude mant exp) := by
  cases exp <;> rfl

theorem convertParse_int (L : Lib) (v : Value) (s : String) :
    convertParse L "int" v s =
      match Atoi s with
      | (rInt, some _) => (.int rInt, some ("cannot convert " ++ s ++ " to int"))
      | (rInt, none) => (.int rInt, none) := by
  unfold convertParse
  simp only [ToLower_int, if_true]
  split <;> simp_all [String.append_assoc]

theorem roundHalfEven_nearest (m d : Nat) (hd : 0 < d) : isNearestTo m d (roundHalfEven m d) := by
  unfold isNearestTo roundHalfEven
  have hm : d * (m / d) + m % d = m := Nat.div_add_mod m d
  have hr : m % d < d := Nat.mod_lt m hd
  generalize m / d = q at hm
  generalize m % d = r at hm hr
  subst hm
  simp only
  split
  · constructor <;> nlinarith
  · split
    · constructor <;> nlinarith
    · split
      · constructor <;> nlinarith
      · constructor <;> nlinarith

/-! ## C13 -/

/-- C13: for a finite float64 `x = (-1)^neg * mant * 2^exp` whose rounded
value fits in int, `convert("int", x)` returns no error and the integer `x`
rounds to: its magnitude is `mant * 2^exp` itself when `exp ≥ 0`, and an
integer nearest to `mant / 2^(-exp)` when `exp < 0`; the value is not
truncated. -/
theorem C13_float_to_int (L : Lib) (neg : Bool) (mant : Nat) (exp : Int)
    (hfit : if neg = true then roundedMagnitude mant exp ≤ 2 ^ 63
      else roundedMagnitude mant exp < 2 ^ 63) :
    convert L "int" (.float64 (.finite neg mant exp)) =
      (.int (if neg = true then -(roundedMagnitude mant exp : Int)
        else (roundedMagnitude mant exp : Int)), none) ∧
    (∀ e : Nat, exp = Int.negSucc e →
      isNearestTo mant (2 ^ (e + 1)) (roundedMagnitude mant exp)) ∧
    (∀ e : Nat, exp = Int.ofNat e → roundedMagnitude mant exp = mant * 2 ^ e) := by
  refine ⟨?_, ?_, ?_⟩
  · have hc : convert L "int" (.float64 (.finite neg mant exp)) =
        convertParse L "int" (.float64 (.finite neg mant exp))
          (fmtFloat0 (.finite neg mant exp)) := by
      unfold convert
      simp
    rw [hc, convertParse_int, fmtFloat0_finite]
    cases neg with
    | true =>
      simp only [if_true] at hfit ⊢
      rw [Atoi_neg_fmtNat _ hfit]
    | false =>
      have hfit2 : roundedMagnitude mant exp < 2 ^ 63 := by simpa using hfit
      simp only [Bool.false_eq_true, if_false]
      rw [Atoi_fmtNat _ hfit2]
  · intro e he
    subst he
    exact roundHalfEven_nearest mant (2 ^ (e + 1)) (by positivity)
  · intro e he
    subst he
    rfl

/-- C13 at 3.7, the float64 `4165829655317709 * 2^-50`: it yields 4, where
truncation would give 3. -/
theorem C13_float_to_int_witness :
    convert demoLib "int" (.float64 (.finite false 4165829655317709 (-50))) = (.int 4, none) ∧
    4165829655317709 / 2 ^ 50 = 3 :=
  ⟨(C13_float_to_int demoLib false 4165829655317709 (-50) (by decide)).1, by decide⟩

/-! ## C14 -/

/-- C14, the code at the failing inputs. For a declared type other than
`int` the float is rendered by `%2.f`, which is width 2 and no decimal place:
3.5 (`7 * 2^-1`) declared `string` comes back as the text " 4", not "3.50";
and 3.75 (`15 * 2^-2`) declared `float64` is handed to `ParseFloat` as " 4",
so that when `ParseFloat` rejects that text (as it does for a leading space)
`convert` fails with "cannot convert  4 to float64". -/
theorem C14_float_rendered_without_decimals (L : Lib) :
    fmtFloat2 (.finite false 7 (-1)) = " 4" ∧
    convert L "string" (.float64 (.finite false 7 (-1))) = (.string " 4", none) ∧
    fmtFloat2 (.finite false 15 (-2)) = " 4" ∧
    (∀ (f : Float64) (e : NumError), L.ParseFloat " 4" = (f, some e) →
      convert L "float64" (.float64 (.finite false 15 (-2))) =
        (.float64 f, some "cannot convert  4 to float64")) := by
  refine ⟨rfl, rfl, rfl, fun f e h => ?_⟩
  have hc : convert L "float64" (.float64 (.finite false 15 (-2))) =
      match L.ParseFloat " 4" with
      | (rFloat64, some _) =>
        (.float64 rFloat64, some ("cannot convert " ++ " 4" ++ " to " ++ "float64"))
      | (rFloat64, none) => (.float64 rFloat64, none) := rfl
  rw [hc, h]
  rfl

/-- C14 in the example environment: 3.75 declared `float64` is rejected. -/
theorem C14_float_rendered_without_decimals_witness :
    convert demoLib "float64" (.float64 (.finite false 15 (-2))) =
      (.float64 (.finite false 0 0), some "cannot convert  4 to float64") :=
  (C14_float_rendered_without_decimals demoLib).2.2.2 (.finite false 0 0) .ErrSyntax rfl

/-! ## C15 -/

theorem ToLower_map (L : Lib) : ToLower L "map" = "map" := rfl

/-- C15: for a composite raw value (a decoded JSON array or object), a
declared type other than exactly `map` makes `convert` fail with "type not
found" and return nil, whether the type is known (`string`, `int`) or `map`
in another letter case; with the declared type `map`, when `json.Marshal`
gives the text of the value, `convert` returns that text and no error. -/
theorem C15_composite_value (L : Lib) (v : Value) (hv : isComposite v = true) :
    (∀ t : String, t ≠ "map" → convert L t v = (.nil, some "type not found")) ∧
    convert L "string" v = (.nil, some "type not found") ∧
    convert L "int" v = (.nil, some "type not found") ∧
    convert L "Map" v = (.nil, some "type not found") ∧
    (∀ text : String, L.Marshal v = some text → convert L "map" v = (.string text, none)) := by
  have h1 : ∀ t : String, t ≠ "map" → convert L t v = (.nil, some "type not found") := by
    intro t ht
    cases v <;> simp [isComposite] at hv <;> simp [convert, ht]
  refine ⟨h1, h1 _ (by decide), h1 _ (by decide), h1 _ (by decide), fun text ht => ?_⟩
  have h2 : convertParse L "map" v text = (.string text, none) := by
    unfold convertParse
    simp only [ToLower_map]
    rfl
  cases v <;> simp [isComposite] at hv <;> simp [convert, ht, h2]

/-- C15 at the empty array. -/
theorem C15_composite_value_witness :
    convert demoLib "Map" (.array []) = (.nil, some "type not found") ∧
    convert demoLib "map" (.array []) = (.string "[]", none) :=
  ⟨(C15_composite_value demoLib (.array []) rfl).2.2.2.1,
   (C15_composite_value demoLib (.array []) rfl).2.2.2.2 "[]" rfl⟩

/-! ## C16 -/

/-- C16 as stated fails: for the composite value `[]` and the declared type
`uuid`, whose lower-casing is none of the six known types, `convert` returns
nil and "type not found", not `[]` and "uuid's type is not supported". -/
theorem C16_counterexample :
    ToLower demoLib "uuid" ∉ ["int", "float64", "bool", "string", "map", "empty"] ∧
    convert demoLib "uuid" (.array []) = (.nil, some "type not found") ∧
    (convert demoLib "uuid" (.array [])).2 ≠ some "uuid's type is not supported" :=
  ⟨by decide, rfl, by decide⟩

/-- C16, amended: for a raw value `v` that is an int, a bool, a float64 or a
string, and a declared type `t` whose lower-casing is none of `int`,
`float64`, `bool`, `string`, `map`, `empty`, `convert(t, v)` fails with
"<t>'s type is not supported" and returns `v` itself with the error. -/
theorem C16_unsupported_type (L : Lib) (t : String) (v : Value)
    (hv : isPrimitive v = true)
    (ht : ToLower L t ∉ ["int", "float64", "bool", "string", "map", "empty"]) :
    convert L t v = (v, some (t ++ "'s type is not supported")) := by
  simp only [List.mem_cons, List.mem_singleton, List.not_mem_nil, or_false, not_or] at ht
  obtain ⟨h1, h2, h3, h4, h5, h6⟩ := ht
  have hp : ∀ s : String, convertParse L t v s = (v, some (t ++ "'s type is not supported")) := by
    intro s
    unfold convertParse
    simp [h1, h2, h3, h4, h5, h6]
  cases v with
  | float64 x =>
    unfold convert
    simp only
    split <;> exact hp _
  | int n => exact hp _
  | bool b => exact hp _
  | string s => exact hp _
  | nil => simp [isPrimitive] at hv
  | array xs => simp [isPrimitive] at hv
  | object kvs => simp [isPrimitive] at hv

/-- C16, amended, at the string `7` and the declared type `UUID`. -/
theorem C16_unsupported_type_witness :
    convert demoLib "UUID" (.string "7") = (.string "7", some ("UUID" ++ "'s type is not supported")) :=
  C16_unsupported_type demoLib "UUID" (.string "7") rfl (by decide)

/-! ## C17 -/

theorem ToLower_of_eqIgnoreCase (L : Lib) (s target : String)
    (hascii : ∀ c ∈ target.data, c.toNat < 128) (h : eqIgnoreCase s target = true) :
    ToLower L s = target := by
  unfold eqIgnoreCase at h
  have h1 : s.data.map Char.toLower = target.data := of_decide_eq_true h
  have h2 : s.data.map (lowerRune L) = s.data.map Char.toLower := by
    apply List.map_congr_left
    intro c hc
    apply lowerRune_eq_toLower
    apply hascii
    rw [← h1]
    exact List.mem_map_of_mem _ hc
  unfold ToLower
  rw [h2, h1]

theorem convert_string_passthrough (L : Lib) (t s : String)
    (h : ToLower L t = "string" ∨ ToLower L t = "map" ∨ ToLower L t = "empty") :
    convert L t (.string s) = (.string s, none) := by
  have hc : convert L t (.string s) = convertParse L t (.string s) s := rfl
  rw [hc]
  unfold convertParse
  rcases h with h | h | h <;> rw [h] <;> rfl

/-- C17: for a string `s` and a declared type that is `string`, `map` or
`empty` in some letter case, `convert` returns `s` unchanged and no error,
whatever `s` is; so `convert("map", s)` accepts a text that is not JSON. -/
theorem C17_string_passthrough (L : Lib) (t s : String)
    (ht : eqIgnoreCase t "string" = true ∨ eqIgnoreCase t "map" = true ∨
      eqIgnoreCase t "empty" = true) :
    convert L t (.string s) = (.string s, none) := by
  apply convert_string_passthrough
  rcases ht with h | h | h
  · exact Or.inl (ToLower_of_eqIgnoreCase L t "string" (by decide) h)
  · exact Or.inr (Or.inl (ToLower_of_eqIgnoreCase L t "map" (by decide) h))
  · exact Or.inr (Or.inr (ToLower_of_eqIgnoreCase L t "empty" (by decide) h))

/-- C17 at the type `map` and the text `[1, 2`, and at the type `String`. -/
theorem C17_string_passthrough_witness :
    convert demoLib "map" (.string "[1, 2") = (.string "[1, 2", none) ∧
    convert demoLib "String" (.string "Bob") = (.string "Bob", none) :=
  ⟨C17_string_passthrough demoLib "map" "[1, 2" (by decide),
   C17_string_passthrough demoLib "String" "Bob" (by decide)⟩

/-! ## C18 -/

/-- C18: for a POST or PUT request with the Content-Type `application/json`
(in some letter case, parameters after `;` or not) whose params and queries
stages succeed, and a schema that declares no payload field, `Check` returns
no error and the status 0 whatever the body is, unreadable or not JSON
included: the body is not read. -/
theorem C18_no_payload_field (L : Lib) (r : Request) (a : API) (ps : GoMap String)
    (hm : r.Method = "POST" ∨ r.Method = "PUT")
    (hp : (checkParams L (newResult r a ps)).2 = none)
    (hq : (checkQueries L (newResult r a ps)).2 = none)
    (hc : isJSONAnyCase (contentTypeCut r.ContentType) = true)
    (hnone : a.Validate.Payload = []) :
    ∀ body : Except String String,
      (Check L (r.withBody r.ContentType body) a ps).2 = none ∧
      (Check L (r.withBody r.ContentType body) a ps).1.Status = 0 := by
  intro body
  have hp2 := (checkParams_err_congr L r (r.withBody r.ContentType body) a a ps rfl).trans hp
  have hq2 := (checkQueries_err_congr L r (r.withBody r.ContentType body) a a ps ps
    rfl rfl).trans hq
  have hc2 : ToLower L ((Split (r.withBody r.ContentType body).ContentType ';').headD "") =
      "application/json" := by
    rw [Split_head]
    exact ToLower_of_isJSONAnyCase L _ hc
  have hpay : (checkPayloadJSON L (newResult (r.withBody r.ContentType body) a ps)).2 = none := by
    unfold checkPayloadJSON
    simp [newResult, hnone]
  have he : (Check L (r.withBody r.ContentType body) a ps).2 = none := by
    rw [Check_json L _ a ps hp2 hq2 hm hc2, hpay]
  refine ⟨he, ?_⟩
  rw [Check_status, if_pos he]

/-- C18 at a POST whose body is the text `not json`, and at one whose body
cannot be read. -/
theorem C18_no_payload_field_witness :
    (Check demoLib (Request.withBody ⟨"POST", "/u", "application/json", .ok ""⟩
        "application/json" (.ok "not json")) ⟨⟨[], [], []⟩⟩ []).2 = none ∧
    (Check demoLib (Request.withBody ⟨"POST", "/u", "application/json", .ok ""⟩
        "application/json" (.error "unexpected EOF")) ⟨⟨[], [], []⟩⟩ []).2 = none :=
  ⟨(C18_no_payload_field demoLib ⟨"POST", "/u", "application/json", .ok ""⟩ ⟨⟨[], [], []⟩⟩ []
      (by decide) (by decide) (by decide) (by decide) rfl (.ok "not json")).1,
   (C18_no_payload_field demoLib ⟨"POST", "/u", "application/json", .ok ""⟩ ⟨⟨[], [], []⟩⟩ []
      (by decide) (by decide) (by decide) (by decide) rfl (.error "unexpected EOF")).1⟩

/-! ## C19 -/

/-- C19: for a POST or PUT request whose params and queries stages succeed,
whatever payload fields the schema declares (none included): if the
Content-Type header, cut at its first `;` and lower-cased, is not
`application/json`, `Check` fails with status 400 and the error "<the cut
header> is not supported by this API"; with no Content-Type header the error
is " is not supported by this API". -/
theorem C19_content_type_without_payload (L : Lib) (r : Request) (a : API) (ps : GoMap String)
    (hm : r.Method = "POST" ∨ r.Method = "PUT")
    (hp : (checkParams L (newResult r a ps)).2 = none)
    (hq : (checkQueries L (newResult r a ps)).2 = none) :
    (ToLower L (contentTypeCut r.ContentType) ≠ "application/json" →
      ∀ payload : List Field,
        (Check L r (a.withPayload payload) ps).2 =
            some (contentTypeCut r.ContentType ++ " is not supported by this API") ∧
        (Check L r (a.withPayload payload) ps).1.Status = 400) ∧
    (r.ContentType = "" →
      (Check L r (a.withPayload []) ps).2 = some " is not supported by this API" ∧
      (Check L r (a.withPayload []) ps).1.Status = 400) := by
  have key : ToLower L (contentTypeCut r.ContentType) ≠ "application/json" →
      ∀ payload : List Field,
        (Check L r (a.withPayload payload) ps).2 =
            some (contentTypeCut r.ContentType ++ " is not supported by this API") ∧
        (Check L r (a.withPayload payload) ps).1.Status = 400 := by
    intro hc payload
    have hp2 := (checkParams_err_congr L r r a (a.withPayload payload) ps rfl).trans hp
    have hq2 := (checkQueries_err_congr L r r a (a.withPayload payload) ps ps rfl rfl).trans hq
    have hc2 : ToLower L ((Split r.ContentType ';').headD "") ≠ "application/json" := by
      rw [Split_head]
      exact hc
    rw [Check_unsupported L r _ ps hp2 hq2 hm hc2, Split_head]
    exact ⟨rfl, rfl⟩
  refine ⟨key, fun h0 => ?_⟩
  have hcut : contentTypeCut r.ContentType = "" := by
    rw [h0]
    rfl
  have hne : ToLower L (contentTypeCut r.ContentType) ≠ "application/json" := by
    rw [hcut]
    have he : ToLower L "" = "" := rfl
    rw [he]
    decide
  have := key hne []
  rw [hcut] at this
  exact this

/-- C19 at a POST with `text/plain` and at a PUT with no Content-Type
header, with no payload field declared. -/
theorem C19_content_type_without_payload_witness :
    (Check demoLib ⟨"POST", "/u", "text/plain; charset=utf-8", .ok ""⟩
        (API.withPayload ⟨⟨[], [], []⟩⟩ []) []).2 =
      some ("text/plain" ++ " is not supported by this API") ∧
    (Check demoLib ⟨"PUT", "/u", "", .ok ""⟩ (API.withPayload ⟨⟨[], [], []⟩⟩ []) []).2 =
      some " is not supported by this API" :=
  ⟨((C19_content_type_without_payload demoLib ⟨"POST", "/u", "text/plain; charset=utf-8", .ok ""⟩
      ⟨⟨[], [], []⟩⟩ [] (by decide) (by decide) (by decide)).1 (by decide) []).1,
   ((C19_content_type_without_payload demoLib ⟨"PUT", "/u", "", .ok ""⟩
      ⟨⟨[], [], []⟩⟩ [] (by decide) (by decide) (by decide)).2 rfl).1⟩

/-! ## The params stage, field by field -/

theorem paramsLoop_cons (L : Lib) (ps : GoMap String) (param : Field) (rest : List Field)
    (m : GoMap Value) :
    paramsLoop L ps (param :: rest) m =
      match paramsInner L param ps .nil with
      | (_, some err) => (m, some err)
      | (value, none) => paramsLoop L ps rest (GoMap.set m param.Key value) := rfl

theorem paramsLoop_append (L : Lib) (ps : GoMap String) (pre rest : List Field)
    (m0 : GoMap Value) :
    paramsLoop L ps (pre ++ rest) m0 =
      match paramsLoop L ps pre m0 with
      | (m, none) => paramsLoop L ps rest m
      | (m, some e) => (m, some e) := by
  induction pre generalizing m0 with
  | nil => simp [paramsLoop]
  | cons q qs ih =>
    simp only [List.cons_append, paramsLoop]
    split
    · rfl
    · exact ih _

theorem paramsInner_of_not_key (L : Lib) (param : Field) (ps : GoMap String) (value : Value)
    (h : param.Key ∉ GoMap.keys ps) : paramsInner L param ps value = (value, none) := by
  induction ps generalizing value with
  | nil => rfl
  | cons kv rest ih =>
    obtain ⟨k, v⟩ := kv
    have hk : k ≠ param.Key := fun e => h (by simp [GoMap.keys, e])
    have hrest : param.Key ∉ GoMap.keys rest := fun e => h (by
      simp only [GoMap.keys, List.map_cons, List.mem_cons] at e ⊢
      exact Or.inr e)
    unfold paramsInner
    rw [if_neg hk]
    exact ih _ hrest

theorem paramsInner_err (L : Lib) (param : Field) (ps : GoMap String) (value : Value)
    (e : String) (h : (paramsInner L param ps value).2 = some e) :
    ∃ kv ∈ ps, kv.1 = param.Key ∧ (convert L param.Type_ (.string kv.2)).2 = some e := by
  induction ps generalizing value with
  | nil => simp [paramsInner] at h
  | cons kv rest ih =>
    obtain ⟨k, v⟩ := kv
    unfold paramsInner at h
    by_cases hk : k = param.Key
    · rw [if_pos hk] at h
      rcases hc : convert L param.Type_ (.string v) with ⟨v1, _ | e1⟩
      · rw [hc] at h
        obtain ⟨kv, hmem, h1, h2⟩ := ih _ h
        exact ⟨kv, List.mem_cons_of_mem _ hmem, h1, h2⟩
      · rw [hc] at h
        refine ⟨(k, v), by simp, hk, ?_⟩
        rw [hc]
        exact h
    · rw [if_neg hk] at h
      obtain ⟨kv, hmem, h1, h2⟩ := ih _ h
      exact ⟨kv, List.mem_cons_of_mem _ hmem, h1, h2⟩

theorem paramsInner_fails (L : Lib) (param : Field) (ps : GoMap String) (value : Value)
    (h : ∃ kv ∈ ps, kv.1 = param.Key ∧ (convert L param.Type_ (.string kv.2)).2 ≠ none) :
    (paramsInner L param ps value).2 ≠ none := by
  induction ps generalizing value with
  | nil =>
    obtain ⟨kv, hmem, _⟩ := h
    simp at hmem
  | cons kv0 rest ih =>
    obtain ⟨k, v⟩ := kv0
    obtain ⟨kv, hmem, h1, h2⟩ := h
    unfold paramsInner
    by_cases hk : k = param.Key
    · rw [if_pos hk]
      rcases hc : convert L param.Type_ (.string v) with ⟨v1, _ | e1⟩
      · simp only
        apply ih
        rcases List.mem_cons.1 hmem with heq | hin
        · subst heq
          rw [hc] at h2
          exact absurd rfl h2
        · exact ⟨kv, hin, h1, h2⟩
      · simp
    · rw [if_neg hk]
      apply ih
      rcases List.mem_cons.1 hmem with heq | hin
      · subst heq
        exact absurd h1 hk
      · exact ⟨kv, hin, h1, h2⟩

theorem paramsLoop_err (L : Lib) (ps : GoMap String) (fields : List Field) (m : GoMap Value)
    (e : String) (h : (paramsLoop L ps fields m).2 = some e) :
    ∃ param ∈ fields, (paramsInner L param ps .nil).2 = some e := by
  induction fields generalizing m with
  | nil => simp [paramsLoop] at h
  | cons param rest ih =>
    rw [paramsLoop_cons] at h
    rcases hc : paramsInner L param ps .nil with ⟨v1, _ | e1⟩
    · rw [hc] at h
      obtain ⟨p, hmem, hp⟩ := ih _ h
      exact ⟨p, List.mem_cons_of_mem _ hmem, hp⟩
    · rw [hc] at h
      refine ⟨param, by simp, ?_⟩
      rw [hc]
      exact h

theorem paramsLoop_fails (L : Lib) (ps : GoMap String) (fields : List Field) (m : GoMap Value)
    (h : ∃ param ∈ fields, (paramsInner L param ps .nil).2 ≠ none) :
    (paramsLoop L ps fields m).2 ≠ none := by
  induction fields generalizing m with
  | nil =>
    obtain ⟨p, hmem, _⟩ := h
    simp at hmem
  | cons param rest ih =>
    obtain ⟨p, hmem, hp⟩ := h
    rw [paramsLoop_cons]
    rcases hc : paramsInner L param ps .nil with ⟨v1, _ | e1⟩
    · simp only
      apply ih
      rcases List.mem_cons.1 hmem with heq | hin
      · subst heq
        rw [hc] at hp
        exact absurd rfl hp
      · exact ⟨p, hin, hp⟩
    · simp

/-! ## C20 -/

/-- C20: `checkParams` never reports a missing field. A declared param
reached with the map `m` built from the params before it, whose key is not a
key of the path-parameter map (compared exactly), gets nil stored under its
key and the loop goes on, whatever its `Nullable` flag. An error of the stage
is the error of `convert` on the value of a declared param whose key is in
the map, and the stage fails exactly when there is such a param and value on
which `convert` fails. -/
theorem C20_params_never_missing (L : Lib) (r : Result) :
    (∀ (pre post : List Field) (param : Field) (m : GoMap Value),
      r.a.Validate.Params = pre ++ param :: post →
      paramsLoop L r.ps pre [] = (m, none) →
      param.Key ∉ GoMap.keys r.ps →
      GoMap.find (GoMap.set m param.Key .nil) param.Key = some .nil ∧
      (checkParams L r).1.Params =
        some (paramsLoop L r.ps post (GoMap.set m param.Key .nil)).1 ∧
      (checkParams L r).2 = (paramsLoop L r.ps post (GoMap.set m param.Key .nil)).2) ∧
    (∀ e : String, (checkParams L r).2 = some e →
      ∃ param ∈ r.a.Validate.Params, ∃ kv ∈ r.ps, kv.1 = param.Key ∧
        (convert L param.Type_ (.string kv.2)).2 = some e) ∧
    ((checkParams L r).2 ≠ none ↔
      ∃ param ∈ r.a.Validate.Params, ∃ kv ∈ r.ps, kv.1 = param.Key ∧
        (convert L param.Type_ (.string kv.2)).2 ≠ none) := by
  have hP : (checkParams L r).1.Params = some (paramsLoop L r.ps r.a.Validate.Params []).1 := rfl
  have hE : (checkParams L r).2 = (paramsLoop L r.ps r.a.Validate.Params []).2 := rfl
  have hfwd : ∀ e : String, (checkParams L r).2 = some e →
      ∃ param ∈ r.a.Validate.Params, ∃ kv ∈ r.ps, kv.1 = param.Key ∧
        (convert L param.Type_ (.string kv.2)).2 = some e := by
    intro e he
    rw [hE] at he
    obtain ⟨param, hmem, hp⟩ := paramsLoop_err L r.ps _ _ e he
    exact ⟨param, hmem, paramsInner_err L param r.ps .nil e hp⟩
  refine ⟨fun pre post param m hs hpre hkey => ⟨GoMap.find_set _ _ _, ?_⟩, hfwd, ?_, ?_⟩
  · rw [hP, hE, hs, paramsLoop_append, hpre]
    simp only
    rw [paramsLoop_cons, paramsInner_of_not_key L param r.ps .nil hkey]
    exact ⟨rfl, rfl⟩
  · intro hne
    rcases he : (checkParams L r).2 with _ | e
    · exact absurd he hne
    · obtain ⟨param, hmem, kv, hkv, h1, h2⟩ := hfwd e he
      refine ⟨param, hmem, kv, hkv, h1, ?_⟩
      rw [h2]
      simp
  · rintro ⟨param, hmem, hex⟩
    rw [hE]
    exact paramsLoop_fails L r.ps _ _ ⟨param, hmem, paramsInner_fails L param r.ps .nil hex⟩

/-- C20 at the non-nullable param `id` with an empty path-parameter map: nil
is stored under `id` and the stage returns no error. -/
theorem C20_params_never_missing_witness :
    (checkParams demoLib (newResult ⟨"GET", "/u", "", .ok ""⟩
        ⟨⟨[⟨"id", "int", false⟩], [], []⟩⟩ [("ID", "5")])).1.Params = some [("id", .nil)] ∧
    (checkParams demoLib (newResult ⟨"GET", "/u", "", .ok ""⟩
        ⟨⟨[⟨"id", "int", false⟩], [], []⟩⟩ [("ID", "5")])).2 = none :=
  ⟨((C20_params_never_missing demoLib (newResult ⟨"GET", "/u", "", .ok ""⟩
        ⟨⟨[⟨"id", "int", false⟩], [], []⟩⟩ [("ID", "5")])).1 [] [] ⟨"id", "int", false⟩ []
      rfl rfl (by decide)).2.1,
   ((C20_params_never_missing demoLib (newResult ⟨"GET", "/u", "", .ok ""⟩
        ⟨⟨[⟨"id", "int", false⟩], [], []⟩⟩ [("ID", "5")])).1 [] [] ⟨"id", "int", false⟩ []
      rfl rfl (by decide)).2.2⟩

end HttpChecker
